import Mathlib

/-!
# Verification of the NMEA-GPS-emulator navigation core

Shallow embedding of the navigation-state engine and sentence renderers of
`nmea_gps.py` and the coordinate conversion helpers of `nmea_utils.py`.

Modelling conventions:
* Python `float` arithmetic is idealised as exact rational arithmetic (`ℚ`);
  `round(x, n)` and `f"{x:.nf}"` round ties upward (Python rounds the exact
  binary value of the double; no claim in this development depends on a tie).
* Python strings are modelled as `String` / `List Char`; `bytearray(ch,'utf-8')[0]`
  is the first UTF-8 byte of the code point.
* `random.sample` / `random.randint` outcomes are universally quantified
  parameters constrained by their documented semantics.
* External capabilities (pyproj `Geod.fwd`, pygeomag `GeoMag.calculate`) are
  function parameters of the tick.
-/

namespace NmeaGps

/-! ## Decimal and hexadecimal digit strings -/

/-- The character for a decimal digit value (`0 ↦ '0'`, …, `9 ↦ '9'`). -/
def digitChar (d : ℕ) : Char := Char.ofNat (48 + d)

/-- The character for a hexadecimal digit value, lowercase as Python `hex` emits
(`10 ↦ 'a'`, …, `15 ↦ 'f'`). -/
def hexDigitChar (d : ℕ) : Char :=
  if d < 10 then Char.ofNat (48 + d) else Char.ofNat (87 + d)

/-- Fuelled base-10 digit rendering (structural recursion so the kernel can
evaluate it; the fuel is always sufficient at the call site). -/
def natDigitsAux : ℕ → ℕ → List Char
  | 0, _ => []
  | fuel + 1, n =>
    if n < 10 then [digitChar n]
    else natDigitsAux fuel (n / 10) ++ [digitChar (n % 10)]

/-- The decimal digit string of a natural number, as Python `str` renders a
nonnegative integer (no leading zeros, `"0"` for zero). -/
def natDigits (n : ℕ) : List Char := natDigitsAux (n + 1) n

/-- Fuelled base-16 digit rendering. -/
def hexDigitsAux : ℕ → ℕ → List Char
  | 0, _ => []
  | fuel + 1, n =>
    if n < 16 then [hexDigitChar n]
    else hexDigitsAux fuel (n / 16) ++ [hexDigitChar (n % 16)]

/-- The lowercase hexadecimal digit string of a natural number: the part of
Python `hex(n)` after the `0x` prefix. -/
def hexDigits (n : ℕ) : List Char := hexDigitsAux (n + 1) n

/-- Numeric value of a decimal digit string, reading left to right.  This is the
integer value Python `int`/`float` assign to an (all-digit) literal; leading
zeros are immaterial. -/
def digitsVal (l : List Char) : ℕ := l.foldl (fun a c => 10 * a + (c.toNat - 48)) 0

/-- `str.zfill` for the nonnegative strings used here: left-pad with `'0'` to
width `w`. -/
def zfill (w : ℕ) (l : List Char) : List Char := List.replicate (w - l.length) '0' ++ l

/-- Decimal digit predicate on characters. -/
def IsDigitCh (c : Char) : Prop := 48 ≤ c.toNat ∧ c.toNat ≤ 57

instance (c : Char) : Decidable (IsDigitCh c) := by unfold IsDigitCh; infer_instance

theorem digitChar_isDigit {d : ℕ} (hd : d < 10) : IsDigitCh (digitChar d) := by
  constructor <;>
  · simp only [digitChar, Char.ofNat, Char.toNat]
    interval_cases d <;> decide

theorem digitChar_ne_dot {d : ℕ} (hd : d < 10) : digitChar d ≠ '.' := by
  simp only [digitChar]
  interval_cases d <;> decide

theorem natDigitsAux_sound {fuel n : ℕ} (h : n < fuel) :
    natDigitsAux fuel n = natDigitsAux (n + 1) n := by
  induction fuel using Nat.strong_induction_on generalizing n with
  | _ fuel ih =>
    match fuel with
    | 0 => omega
    | fuel + 1 =>
      by_cases h10 : n < 10
      · simp [natDigitsAux, h10]
      · have hdiv : n / 10 < n := Nat.div_lt_self (by omega) (by omega)
        simp only [natDigitsAux, h10, if_false]
        rw [ih fuel (by omega) (by omega), ih n (by omega) hdiv]

theorem natDigits_def (n : ℕ) :
    natDigits n = if n < 10 then [digitChar n]
      else natDigits (n / 10) ++ [digitChar (n % 10)] := by
  by_cases h10 : n < 10
  · simp [natDigits, natDigitsAux, h10]
  · have hdiv : n / 10 < n := Nat.div_lt_self (by omega) (by omega)
    simp only [natDigits, natDigitsAux, h10, if_false]
    rw [natDigitsAux_sound hdiv]
    rfl

theorem natDigits_ne_nil (n : ℕ) : natDigits n ≠ [] := by
  rw [natDigits_def]
  split <;> simp

theorem natDigits_all_digits (n : ℕ) : ∀ c ∈ natDigits n, IsDigitCh c := by
  induction n using Nat.strong_induction_on with
  | _ n ih =>
    rw [natDigits_def]
    by_cases h10 : n < 10
    · simp only [h10, if_true, List.mem_singleton]
      rintro c rfl
      exact digitChar_isDigit h10
    · have hdiv : n / 10 < n := Nat.div_lt_self (by omega) (by omega)
      simp only [h10, if_false, List.mem_append, List.mem_singleton]
      rintro c (hc | rfl)
      · exact ih _ hdiv c hc
      · exact digitChar_isDigit (Nat.mod_lt _ (by omega))

theorem digitsVal_append (l₁ l₂ : List Char) :
    digitsVal (l₁ ++ l₂) = digitsVal l₁ * 10 ^ l₂.length + digitsVal l₂ := by
  have key : ∀ (l : List Char) (a : ℕ),
      l.foldl (fun a c => 10 * a + (c.toNat - 48)) a
        = a * 10 ^ l.length + l.foldl (fun a c => 10 * a + (c.toNat - 48)) 0 := by
    intro l
    induction l with
    | nil => simp
    | cons c l ihl =>
      intro a
      simp only [List.foldl_cons, List.length_cons]
      rw [ihl (10 * a + (c.toNat - 48)), ihl (10 * 0 + (c.toNat - 48))]
      ring
  unfold digitsVal
  rw [List.foldl_append, key]

theorem digitsVal_cons (c : Char) (l : List Char) :
    digitsVal (c :: l) = (c.toNat - 48) * 10 ^ l.length + digitsVal l := by
  have : (c :: l) = [c] ++ l := rfl
  rw [this, digitsVal_append]
  simp [digitsVal]

theorem digitsVal_digitChar {d : ℕ} (hd : d < 10) : digitsVal [digitChar d] = d := by
  simp only [digitsVal, List.foldl_cons, List.foldl_nil, digitChar, Char.ofNat]
  interval_cases d <;> decide

theorem digitsVal_natDigits (n : ℕ) : digitsVal (natDigits n) = n := by
  induction n using Nat.strong_induction_on with
  | _ n ih =>
    rw [natDigits_def]
    by_cases h10 : n < 10
    · simp only [h10, if_true]
      exact digitsVal_digitChar h10
    · have hdiv : n / 10 < n := Nat.div_lt_self (by omega) (by omega)
      simp only [h10, if_false]
      rw [digitsVal_append, ih _ hdiv, digitsVal_digitChar (Nat.mod_lt _ (by omega))]
      simp only [List.length_cons, List.length_nil, zero_add, pow_one]
      omega

theorem digitsVal_lt (l : List Char) (h : ∀ c ∈ l, IsDigitCh c) :
    digitsVal l < 10 ^ l.length := by
  induction l with
  | nil => simp [digitsVal]
  | cons c l ihl =>
    rw [digitsVal_cons]
    have hc := h c (by simp)
    have hl := ihl (fun c hc => h c (by simp [hc]))
    have : c.toNat - 48 ≤ 9 := by rcases hc with ⟨h1, h2⟩; omega
    calc (c.toNat - 48) * 10 ^ l.length + digitsVal l
        ≤ 9 * 10 ^ l.length + digitsVal l := by
          exact Nat.add_le_add_right (Nat.mul_le_mul_right _ this) _
      _ < 9 * 10 ^ l.length + 10 ^ l.length := by omega
      _ = 10 ^ (c :: l).length := by simp [List.length_cons, pow_succ]; ring

theorem natDigits_length_le {n k : ℕ} (h : n < 10 ^ k) (hk : 1 ≤ k) :
    (natDigits n).length ≤ k := by
  induction k generalizing n with
  | zero => omega
  | succ k ihk =>
    rw [natDigits_def]
    by_cases h10 : n < 10
    · simp [h10]
    · have hk1 : 1 ≤ k := by
        by_contra hcon
        have hk0 : k = 0 := by omega
        subst hk0
        norm_num at h
        omega
      have hdivk : n / 10 < 10 ^ k := by
        apply Nat.div_lt_of_lt_mul
        calc n < 10 ^ (k + 1) := h
          _ = 10 * 10 ^ k := by ring
      simp only [h10, if_false, List.length_append, List.length_cons, List.length_nil]
      have := ihk hdivk hk1
      omega

theorem digitsVal_replicate_zero (k : ℕ) : digitsVal (List.replicate k '0') = 0 := by
  induction k with
  | zero => simp [digitsVal]
  | succ k ihk =>
    have h0 : '0'.toNat = 48 := rfl
    rw [List.replicate_succ, digitsVal_cons, ihk, h0]
    simp

theorem digitsVal_zfill (w : ℕ) (l : List Char) : digitsVal (zfill w l) = digitsVal l := by
  unfold zfill
  rw [digitsVal_append, digitsVal_replicate_zero]
  simp

theorem zfill_length (w : ℕ) (l : List Char) : (zfill w l).length = max w l.length := by
  unfold zfill
  simp [List.length_append, List.length_replicate]
  omega

/-! ## NMEA checksum (`NmeaMsg.check_sum`, nmea_gps.py lines 380-400) -/

/-- `bytearray(char, encoding='utf-8')[0]`: the first byte of the UTF-8
encoding of a character. -/
def utf8FirstByte (c : Char) : ℕ :=
  if c.toNat < 128 then c.toNat
  else if c.toNat < 2048 then 192 + c.toNat / 64
  else if c.toNat < 65536 then 224 + c.toNat / 4096
  else 240 + c.toNat / 262144

/-- The XOR accumulation loop of `NmeaMsg.check_sum`. -/
def xorFoldBytes (l : List Char) : ℕ := l.foldl (fun a c => a ^^^ utf8FirstByte c) 0

/-- Python `str.upper` on the ASCII strings produced here. -/
def pyUpper (l : List Char) : List Char := l.map Char.toUpper

/-- `NmeaMsg.check_sum` (static method): XOR of the UTF-8 first bytes of all
characters, rendered as `hex(..)` without the `0x` prefix, uppercased, with a
`'0'` prepended when the hex string is not 2 characters long. -/
def check_sum (data : String) : String :=
  let cs := xorFoldBytes data.toList
  let hexStr := hexDigits cs
  if hexStr.length = 2 then ⟨pyUpper hexStr⟩
  else ⟨pyUpper ('0' :: hexStr)⟩

/-- The checksum contract as spec §4.1 words it: XOR the byte value of every
character of the body; format as uppercase hex, left-zero-padded to 2 digits. -/
def checksumSpec (l : List Char) : List Char :=
  pyUpper (zfill 2 (hexDigits (l.foldl (fun a c => a ^^^ c.toNat) 0)))

theorem utf8FirstByte_ascii {c : Char} (h : c.toNat < 128) : utf8FirstByte c = c.toNat := by
  unfold utf8FirstByte
  rw [if_pos h]

theorem hexDigits_one {n : ℕ} (h : n < 16) : hexDigits n = [hexDigitChar n] := by
  simp [hexDigits, hexDigitsAux, h]

theorem hexDigits_two {n : ℕ} (h16 : 16 ≤ n) (h256 : n < 256) :
    hexDigits n = [hexDigitChar (n / 16), hexDigitChar (n % 16)] := by
  obtain ⟨m, rfl⟩ : ∃ m, n = m + 16 := ⟨n - 16, by omega⟩
  have hd16 : (m + 16) / 16 < 16 := by omega
  show hexDigitsAux (m + 16 + 1) (m + 16) = _
  rw [show hexDigitsAux (m + 16 + 1) (m + 16)
        = hexDigitsAux (m + 16) ((m + 16) / 16) ++ [hexDigitChar ((m + 16) % 16)] by
      simp only [hexDigitsAux]
      rw [if_neg (by omega)]]
  rw [show (m + 16) = (m + 15) + 1 from rfl]
  simp only [hexDigitsAux]
  rw [if_pos hd16]
  rfl

theorem xorFoldBytes_ascii (l : List Char) (h : ∀ c ∈ l, c.toNat < 128) :
    xorFoldBytes l = l.foldl (fun a c => a ^^^ c.toNat) 0 := by
  have key : ∀ (l : List Char) (a : ℕ), (∀ c ∈ l, c.toNat < 128) →
      l.foldl (fun a c => a ^^^ utf8FirstByte c) a = l.foldl (fun a c => a ^^^ c.toNat) a := by
    intro l
    induction l with
    | nil => intro a _; rfl
    | cons c l ihl =>
      intro a hall
      simp only [List.foldl_cons]
      rw [utf8FirstByte_ascii (hall c (by simp))]
      exact ihl _ (fun x hx => hall x (by simp [hx]))
  exact key l 0 h

theorem xorFold_ascii_lt (l : List Char) (h : ∀ c ∈ l, c.toNat < 128) :
    l.foldl (fun a c => a ^^^ c.toNat) 0 < 256 := by
  have key : ∀ (l : List Char) (a : ℕ), a < 256 → (∀ c ∈ l, c.toNat < 128) →
      l.foldl (fun a c => a ^^^ c.toNat) a < 256 := by
    intro l
    induction l with
    | nil => intro a ha _; simpa using ha
    | cons c l ihl =>
      intro a ha hall
      simp only [List.foldl_cons]
      apply ihl
      · have hc : c.toNat < 256 := lt_trans (hall c (by simp)) (by norm_num)
        have h256 : (256 : ℕ) = 2 ^ 8 := by norm_num
        rw [h256] at ha hc ⊢
        exact Nat.xor_lt_two_pow ha hc
      · exact fun x hx => hall x (by simp [hx])
  exact key l 0 (by norm_num) h

/-- **C2.** For every printable-ASCII body, `NmeaMsg.check_sum` equals the XOR
of the byte values of all characters formatted as a 2-character uppercase
hexadecimal string left-padded with zero; in particular the checksum of the
GPRMC literal of the spec is `"08"`. -/
theorem C2_checksum_spec :
    (∀ body : String, (∀ c ∈ body.toList, c.toNat < 128) →
        check_sum body = ⟨checksumSpec body.toList⟩) ∧
    check_sum "GPRMC,083840.000,A,5002.31537,N,00833.57615,E,0.000,90.0,060924,003.27,E,A"
      = "08" := by
  constructor
  · intro body h
    have hfold := xorFoldBytes_ascii body.toList h
    have hv := xorFold_ascii_lt body.toList h
    show (if (hexDigits (xorFoldBytes body.toList)).length = 2
        then (⟨pyUpper (hexDigits (xorFoldBytes body.toList))⟩ : String)
        else ⟨pyUpper ('0' :: hexDigits (xorFoldBytes body.toList))⟩)
      = ⟨checksumSpec body.toList⟩
    rw [hfold]
    unfold checksumSpec
    by_cases h16 : body.toList.foldl (fun a c => a ^^^ c.toNat) 0 < 16
    · rw [hexDigits_one h16]
      simp [zfill]
    · rw [hexDigits_two (by omega) hv]
      simp [zfill]
  · decide

/-- Witness for C2 at a concrete body. -/
theorem C2_checksum_spec_witness :
    (∀ c ∈ ("GPHDT,90.0,T" : String).toList, c.toNat < 128) ∧
    check_sum "GPHDT,90.0,T" = ⟨checksumSpec ("GPHDT,90.0,T" : String).toList⟩ :=
  ⟨by decide, C2_checksum_spec.1 "GPHDT,90.0,T" (by decide)⟩

/-! ## Heading reconciliation (`NmeaMsg._heading_update`, nmea_gps.py 260-307) -/

/-- Python `round(x, ndigits)` idealised on rationals (ties round up; no claim
in this development evaluates it at a tie). -/
def roundPy (ndigits : ℕ) (x : ℚ) : ℚ := (⌊x * 10 ^ ndigits + 1 / 2⌋ : ℚ) / 10 ^ ndigits

/-- `NmeaMsg._heading_update`: move `heading` toward `heading_targeted` by the
3° per-tick increment, snapping when the remaining raw delta is at most 3°,
wrapping into the 0–359 range and rounding to 1 decimal.  The two outer
branches are kept separately exactly as in the source even though their bodies
coincide. -/
def heading_update (heading_targeted heading : ℚ) : ℚ :=
  let turn_angle := heading_targeted - heading
  let heading_increment : ℚ := 3
  let stepped :=
    if |turn_angle| ≤ heading_increment then heading_targeted
    else
      if heading_targeted > heading then
        if |turn_angle| > 180 then
          if turn_angle > 0 then heading - heading_increment else heading + heading_increment
        else
          if turn_angle > 0 then heading + heading_increment else heading - heading_increment
      else
        if |turn_angle| > 180 then
          if turn_angle > 0 then heading - heading_increment else heading + heading_increment
        else
          if turn_angle > 0 then heading + heading_increment else heading - heading_increment
  let wrapped :=
    if stepped = 360 then 0
    else if stepped > 360 then stepped - 360
    else if stepped < 0 then stepped + 360
    else stepped
  roundPy 1 wrapped

/-- The un-wrapped step of `_heading_update` on headings measured in integral
tenths of a degree (the granularity of all validated program inputs). -/
def headingSteppedZ (t c : ℤ) : ℤ :=
  if |t - c| ≤ 30 then t
  else
    if t > c then
      if |t - c| > 1800 then (if t - c > 0 then c - 30 else c + 30)
      else (if t - c > 0 then c + 30 else c - 30)
    else
      if |t - c| > 1800 then (if t - c > 0 then c - 30 else c + 30)
      else (if t - c > 0 then c + 30 else c - 30)

/-- The 0–359 wrap of `_heading_update` in tenths of a degree. -/
def headingWrapZ (h : ℤ) : ℤ :=
  if h = 3600 then 0 else if h > 3600 then h - 3600 else if h < 0 then h + 3600 else h

/-- One `_heading_update` tick in tenths of a degree. -/
def headingStepZ (t c : ℤ) : ℤ := headingWrapZ (headingSteppedZ t c)

theorem int_div10_le_iff (a b : ℤ) : (a : ℚ) / 10 ≤ (b : ℚ) / 10 ↔ a ≤ b := by
  constructor
  · intro h
    by_contra hcon
    push_neg at hcon
    have : (b : ℚ) < (a : ℚ) := by exact_mod_cast hcon
    linarith
  · intro h
    have : (a : ℚ) ≤ (b : ℚ) := by exact_mod_cast h
    linarith

theorem int_div10_lt_iff (a b : ℤ) : (a : ℚ) / 10 < (b : ℚ) / 10 ↔ a < b := by
  constructor
  · intro h
    by_contra hcon
    push_neg at hcon
    have : (b : ℚ) ≤ (a : ℚ) := by exact_mod_cast hcon
    linarith
  · intro h
    have : (a : ℚ) < (b : ℚ) := by exact_mod_cast h
    linarith

theorem int_div10_eq_iff (a b : ℤ) : (a : ℚ) / 10 = (b : ℚ) / 10 ↔ a = b := by
  constructor
  · intro h
    have : (a : ℚ) = (b : ℚ) := by
      field_simp at h
      exact_mod_cast h
    exact_mod_cast this
  · rintro rfl
    rfl

theorem int_div10_abs (a : ℤ) : |(a : ℚ) / 10| = ((|a| : ℤ) : ℚ) / 10 := by
  rw [abs_div, show |(10 : ℚ)| = 10 from by norm_num, ← Int.cast_abs]

theorem roundPy1_tenth (z : ℤ) : roundPy 1 ((z : ℚ) / 10) = (z : ℚ) / 10 := by
  unfold roundPy
  rw [pow_one]
  rw [show (z : ℚ) / 10 * 10 + 1 / 2 = (z : ℚ) + 1 / 2 from by field_simp]
  rw [show ((z : ℚ) + 1 / 2) = ((z : ℤ) : ℚ) + 1 / 2 from by norm_num, Int.floor_int_add]
  rw [show ⌊(1 / 2 : ℚ)⌋ = 0 from by norm_num [Int.floor_eq_zero_iff]]
  norm_num

theorem headingWrap_cast (z : ℤ) :
    (if ((z : ℚ) / 10) = 360 then (0 : ℚ)
      else if ((z : ℚ) / 10) > 360 then (z : ℚ) / 10 - 360
      else if ((z : ℚ) / 10) < 0 then (z : ℚ) / 10 + 360
      else (z : ℚ) / 10)
    = ((headingWrapZ z : ℤ) : ℚ) / 10 := by
  unfold headingWrapZ
  have h360 : ((z : ℚ) / 10 = 360) ↔ z = 3600 := by
    rw [show (360 : ℚ) = ((3600 : ℤ) : ℚ) / 10 from by norm_num, int_div10_eq_iff]
  have hgt : ((z : ℚ) / 10 > 360) ↔ z > 3600 := by
    rw [show (360 : ℚ) = ((3600 : ℤ) : ℚ) / 10 from by norm_num]
    exact int_div10_lt_iff 3600 z
  have hlt : ((z : ℚ) / 10 < 0) ↔ z < 0 := by
    rw [show (0 : ℚ) = ((0 : ℤ) : ℚ) / 10 from by norm_num]
    exact int_div10_lt_iff z 0
  by_cases h1 : z = 3600
  · rw [if_pos (h360.mpr h1), if_pos h1]
    norm_num
  · rw [if_neg (fun hcon => h1 (h360.mp hcon)), if_neg h1]
    by_cases h2 : z > 3600
    · rw [if_pos (hgt.mpr h2), if_pos h2]
      push_cast
      ring
    · rw [if_neg (fun hcon => h2 (hgt.mp hcon)), if_neg h2]
      by_cases h3 : z < 0
      · rw [if_pos (hlt.mpr h3), if_pos h3]
        push_cast
        ring
      · rw [if_neg (fun hcon => h3 (hlt.mp hcon)), if_neg h3]

theorem heading_update_cast (t c : ℤ) :
    heading_update ((t : ℚ) / 10) ((c : ℚ) / 10) = ((headingStepZ t c : ℤ) : ℚ) / 10 := by
  have e : (t : ℚ) / 10 - (c : ℚ) / 10 = ((t - c : ℤ) : ℚ) / 10 := by
    push_cast
    ring
  have habs3 : (|(t : ℚ) / 10 - (c : ℚ) / 10| ≤ 3) ↔ |t - c| ≤ 30 := by
    rw [e, int_div10_abs, show (3 : ℚ) = ((30 : ℤ) : ℚ) / 10 from by norm_num, int_div10_le_iff]
  have habs180 : (|(t : ℚ) / 10 - (c : ℚ) / 10| > 180) ↔ |t - c| > 1800 := by
    rw [e, int_div10_abs, show (180 : ℚ) = ((1800 : ℤ) : ℚ) / 10 from by norm_num]
    exact int_div10_lt_iff 1800 |t - c|
  have hgt : ((t : ℚ) / 10 > (c : ℚ) / 10) ↔ t > c := int_div10_lt_iff c t
  have hpos : ((t : ℚ) / 10 - (c : ℚ) / 10 > 0) ↔ t - c > 0 := by
    rw [e, show (0 : ℚ) = ((0 : ℤ) : ℚ) / 10 from by norm_num]
    exact int_div10_lt_iff 0 (t - c)
  have hsub : (c : ℚ) / 10 - 3 = ((c - 30 : ℤ) : ℚ) / 10 := by
    push_cast
    ring
  have hadd : (c : ℚ) / 10 + 3 = ((c + 30 : ℤ) : ℚ) / 10 := by
    push_cast
    ring
  have hstep : (if |(t : ℚ) / 10 - (c : ℚ) / 10| ≤ 3 then (t : ℚ) / 10
      else
        if (t : ℚ) / 10 > (c : ℚ) / 10 then
          if |(t : ℚ) / 10 - (c : ℚ) / 10| > 180 then
            if (t : ℚ) / 10 - (c : ℚ) / 10 > 0 then (c : ℚ) / 10 - 3 else (c : ℚ) / 10 + 3
          else
            if (t : ℚ) / 10 - (c : ℚ) / 10 > 0 then (c : ℚ) / 10 + 3 else (c : ℚ) / 10 - 3
        else
          if |(t : ℚ) / 10 - (c : ℚ) / 10| > 180 then
            if (t : ℚ) / 10 - (c : ℚ) / 10 > 0 then (c : ℚ) / 10 - 3 else (c : ℚ) / 10 + 3
          else
            if (t : ℚ) / 10 - (c : ℚ) / 10 > 0 then (c : ℚ) / 10 + 3 else (c : ℚ) / 10 - 3)
      = ((headingSteppedZ t c : ℤ) : ℚ) / 10 := by
    unfold headingSteppedZ
    by_cases h1 : |t - c| ≤ 30
    · rw [if_pos (habs3.mpr h1), if_pos h1]
    · rw [if_neg (fun hcon => h1 (habs3.mp hcon)), if_neg h1]
      by_cases h2 : t > c
      · rw [if_pos (hgt.mpr h2), if_pos h2]
        by_cases h3 : |t - c| > 1800
        · rw [if_pos (habs180.mpr h3), if_pos h3]
          by_cases h4 : t - c > 0
          · rw [if_pos (hpos.mpr h4), if_pos h4, hsub]
          · rw [if_neg (fun hcon => h4 (hpos.mp hcon)), if_neg h4, hadd]
        · rw [if_neg (fun hcon => h3 (habs180.mp hcon)), if_neg h3]
          by_cases h4 : t - c > 0
          · rw [if_pos (hpos.mpr h4), if_pos h4, hadd]
          · rw [if_neg (fun hcon => h4 (hpos.mp hcon)), if_neg h4, hsub]
      · rw [if_neg (fun hcon => h2 (hgt.mp hcon)), if_neg h2]
        by_cases h3 : |t - c| > 1800
        · rw [if_pos (habs180.mpr h3), if_pos h3]
          by_cases h4 : t - c > 0
          · rw [if_pos (hpos.mpr h4), if_pos h4, hsub]
          · rw [if_neg (fun hcon => h4 (hpos.mp hcon)), if_neg h4, hadd]
        · rw [if_neg (fun hcon => h3 (habs180.mp hcon)), if_neg h3]
          by_cases h4 : t - c > 0
          · rw [if_pos (hpos.mpr h4), if_pos h4, hadd]
          · rw [if_neg (fun hcon => h4 (hpos.mp hcon)), if_neg h4, hsub]
  show roundPy 1 _ = _
  rw [hstep, headingWrap_cast, roundPy1_tenth]
  rfl

theorem steppedZ_snap {t c : ℤ} (h : |t - c| ≤ 30) : headingSteppedZ t c = t := by
  unfold headingSteppedZ
  rw [if_pos h]

theorem steppedZ_toward_up {t c : ℤ} (h1 : 30 < t - c) (h2 : t - c ≤ 1800) :
    headingSteppedZ t c = c + 30 := by
  have habs : |t - c| = t - c := abs_of_pos (by omega)
  unfold headingSteppedZ
  rw [habs]
  split_ifs <;> omega

theorem steppedZ_toward_down {t c : ℤ} (h1 : 30 < c - t) (h2 : c - t ≤ 1800) :
    headingSteppedZ t c = c - 30 := by
  have habs : |t - c| = -(t - c) := abs_of_neg (by omega)
  unfold headingSteppedZ
  rw [habs]
  split_ifs <;> omega

theorem steppedZ_far_pos {t c : ℤ} (h1 : 1800 < t - c) :
    headingSteppedZ t c = c - 30 := by
  have habs : |t - c| = t - c := abs_of_pos (by omega)
  unfold headingSteppedZ
  rw [habs]
  split_ifs <;> omega

theorem steppedZ_far_neg {t c : ℤ} (h1 : 1800 < c - t) :
    headingSteppedZ t c = c + 30 := by
  have habs : |t - c| = -(t - c) := abs_of_neg (by omega)
  unfold headingSteppedZ
  rw [habs]
  split_ifs <;> omega

theorem wrapZ_id {h : ℤ} (h0 : 0 ≤ h) (h1 : h < 3600) : headingWrapZ h = h := by
  unfold headingWrapZ
  split_ifs <;> omega

theorem wrapZ_high {h : ℤ} (h0 : 3600 ≤ h) : headingWrapZ h = h - 3600 := by
  unfold headingWrapZ
  split_ifs <;> omega

theorem wrapZ_neg {h : ℤ} (h0 : h < 0) : headingWrapZ h = h + 3600 := by
  unfold headingWrapZ
  split_ifs <;> omega

theorem stepZ_snap {t c : ℤ} (h : |t - c| ≤ 30) (ht0 : 0 ≤ t) (ht1 : t < 3600) :
    headingStepZ t c = t := by
  unfold headingStepZ
  rw [steppedZ_snap h, wrapZ_id ht0 ht1]

theorem stepZ_up {t c : ℤ} (h1 : 30 < t - c) (h2 : t - c ≤ 1800) (hc0 : 0 ≤ c)
    (ht1 : t < 3600) : headingStepZ t c = c + 30 := by
  unfold headingStepZ
  rw [steppedZ_toward_up h1 h2, wrapZ_id (by omega) (by omega)]

theorem stepZ_down {t c : ℤ} (h1 : 30 < c - t) (h2 : c - t ≤ 1800) (ht0 : 0 ≤ t)
    (hc1 : c < 3600) : headingStepZ t c = c - 30 := by
  unfold headingStepZ
  rw [steppedZ_toward_down h1 h2, wrapZ_id (by omega) (by omega)]

theorem stepZ_far_pos {t c : ℤ} (h1 : 1800 < t - c) (hc : 30 ≤ c) (ht1 : t < 3600) :
    headingStepZ t c = c - 30 := by
  unfold headingStepZ
  rw [steppedZ_far_pos h1, wrapZ_id (by omega) (by omega)]

theorem stepZ_far_pos_wrap {t c : ℤ} (h1 : 1800 < t - c) (hc0 : 0 ≤ c) (hc : c < 30) :
    headingStepZ t c = c + 3570 := by
  unfold headingStepZ
  rw [steppedZ_far_pos h1, wrapZ_neg (by omega)]
  ring

theorem stepZ_far_neg {t c : ℤ} (h1 : 1800 < c - t) (hc1 : c + 30 < 3600) (ht0 : 0 ≤ t) :
    headingStepZ t c = c + 30 := by
  unfold headingStepZ
  rw [steppedZ_far_neg h1, wrapZ_id (by omega) (by omega)]

theorem stepZ_far_neg_wrap {t c : ℤ} (h1 : 1800 < c - t) (hc : 3570 ≤ c) (hc1 : c < 3600) :
    headingStepZ t c = c + 30 - 3600 := by
  unfold headingStepZ
  rw [steppedZ_far_neg h1, wrapZ_high (by omega)]

theorem headingStepZ_range (t c : ℤ) (hc0 : 0 ≤ c) (hc1 : c < 3600)
    (ht0 : 0 ≤ t) (ht1 : t < 3600) :
    0 ≤ headingStepZ t c ∧ headingStepZ t c < 3600 := by
  by_cases hsnap : |t - c| ≤ 30
  · rw [stepZ_snap hsnap ht0 ht1]
    omega
  · rcases abs_cases (t - c) with ⟨he, hp⟩ | ⟨he, hn⟩
    · rw [he] at hsnap
      by_cases hfar : 1800 < t - c
      · by_cases hc30 : 30 ≤ c
        · rw [stepZ_far_pos hfar hc30 ht1]
          omega
        · rw [stepZ_far_pos_wrap hfar hc0 (by omega)]
          omega
      · rw [stepZ_up (by omega) (by omega) hc0 ht1]
        omega
    · rw [he] at hsnap
      by_cases hfar : 1800 < c - t
      · by_cases hc30 : c + 30 < 3600
        · rw [stepZ_far_neg hfar hc30 ht0]
          omega
        · rw [stepZ_far_neg_wrap hfar (by omega) hc1]
          omega
      · rw [stepZ_down (by omega) (by omega) ht0 hc1]
        omega

/-- **C3.** From heading 350° toward target 10° the reconciliation turns along
the 20°-wide path through 360→0 in 3° steps (350→353→356→359→2→5→8), snaps
the last 2° (8→10), and reaches exactly 10° after exactly 7 ticks, not 6. -/
theorem C3_heading_wrap_case :
    heading_update 10 350 = 353 ∧ heading_update 10 353 = 356 ∧
    heading_update 10 356 = 359 ∧ heading_update 10 359 = 2 ∧
    heading_update 10 2 = 5 ∧ heading_update 10 5 = 8 ∧ heading_update 10 8 = 10 ∧
    (heading_update 10)^[7] 350 = 10 ∧ (heading_update 10)^[6] 350 ≠ 10 := by
  have h1 : heading_update 10 350 = 353 := by
    norm_num [heading_update, roundPy, abs_of_nonneg, abs_of_nonpos]
  have h2 : heading_update 10 353 = 356 := by
    norm_num [heading_update, roundPy, abs_of_nonneg, abs_of_nonpos]
  have h3 : heading_update 10 356 = 359 := by
    norm_num [heading_update, roundPy, abs_of_nonneg, abs_of_nonpos]
  have h4 : heading_update 10 359 = 2 := by
    norm_num [heading_update, roundPy, abs_of_nonneg, abs_of_nonpos]
  have h5 : heading_update 10 2 = 5 := by
    norm_num [heading_update, roundPy, abs_of_nonneg, abs_of_nonpos]
  have h6 : heading_update 10 5 = 8 := by
    norm_num [heading_update, roundPy, abs_of_nonneg, abs_of_nonpos]
  have h7 : heading_update 10 8 = 10 := by
    norm_num [heading_update, roundPy, abs_of_nonneg, abs_of_nonpos]
  have i1 : (heading_update 10)^[1] 350 = 353 := by
    rw [Function.iterate_one, h1]
  have i2 : (heading_update 10)^[2] 350 = 356 := by
    rw [show (2 : ℕ) = 1 + 1 from rfl, Function.iterate_succ_apply, Function.iterate_one, h1, h2]
  have i3 : (heading_update 10)^[3] 350 = 359 := by
    rw [show (3 : ℕ) = 2 + 1 from rfl, Function.iterate_succ_apply', i2, h3]
  have i4 : (heading_update 10)^[4] 350 = 2 := by
    rw [show (4 : ℕ) = 3 + 1 from rfl, Function.iterate_succ_apply', i3, h4]
  have i5 : (heading_update 10)^[5] 350 = 5 := by
    rw [show (5 : ℕ) = 4 + 1 from rfl, Function.iterate_succ_apply', i4, h5]
  have i6 : (heading_update 10)^[6] 350 = 8 := by
    rw [show (6 : ℕ) = 5 + 1 from rfl, Function.iterate_succ_apply', i5, h6]
  have i7 : (heading_update 10)^[7] 350 = 10 := by
    rw [show (7 : ℕ) = 6 + 1 from rfl, Function.iterate_succ_apply', i6, h7]
  refine ⟨h1, h2, h3, h4, h5, h6, h7, i7, ?_⟩
  rw [i6]
  norm_num

/-- **C6 counterexample.** At start heading 356.96° ∈ [0,360) with target 20°,
one heading update yields exactly 360.0 (the +3° step gives 359.96, the wrap
stage leaves it, and rounding to 1 decimal produces 360.0), so the result does
not lie in [0,360). -/
theorem C6_counterexample :
    heading_update 20 (8924 / 25) = 360 ∧ ¬ heading_update 20 (8924 / 25) < 360 := by
  have h : heading_update 20 (8924 / 25) = 360 := by
    norm_num [heading_update, roundPy, abs_of_nonneg, abs_of_nonpos]
  exact ⟨h, by rw [h]; norm_num⟩

/-- **C6 (amended).** For every starting heading and target that are integral
multiples of 0.1° in [0,360) — the granularity of all headings the validated
program inputs produce — the updated heading lies in [0,360); out-of-range
intermediate values are wrapped by ±360, never clamped. -/
theorem C6_heading_range (cv tv : ℤ) (hc0 : 0 ≤ cv) (hc1 : cv < 3600)
    (ht0 : 0 ≤ tv) (ht1 : tv < 3600) :
    0 ≤ heading_update ((tv : ℚ) / 10) ((cv : ℚ) / 10) ∧
    heading_update ((tv : ℚ) / 10) ((cv : ℚ) / 10) < 360 := by
  rw [heading_update_cast]
  obtain ⟨hr0, hr1⟩ := headingStepZ_range tv cv hc0 hc1 ht0 ht1
  constructor
  · rw [show (0 : ℚ) = ((0 : ℤ) : ℚ) / 10 from by norm_num, int_div10_le_iff]
    exact hr0
  · rw [show (360 : ℚ) = ((3600 : ℤ) : ℚ) / 10 from by norm_num, int_div10_lt_iff]
    exact hr1

/-- Witness for C6 (amended) at heading 350.0°, target 10.0°. -/
theorem C6_heading_range_witness :
    ((0 : ℤ) ≤ 3500 ∧ (3500 : ℤ) < 3600 ∧ (0 : ℤ) ≤ 100 ∧ (100 : ℤ) < 3600) ∧
    (0 ≤ heading_update ((100 : ℚ) / 10) ((3500 : ℚ) / 10) ∧
      heading_update ((100 : ℚ) / 10) ((3500 : ℚ) / 10) < 360) :=
  ⟨⟨by decide, by decide, by decide, by decide⟩,
    C6_heading_range 3500 100 (by decide) (by decide) (by decide) (by decide)⟩

/-! ## Convergence of heading reconciliation (C10) -/

theorem stepZ_fix {t : ℤ} (ht0 : 0 ≤ t) (ht1 : t < 3600) : headingStepZ t t = t :=
  stepZ_snap (by rw [sub_self, abs_zero]; omega) ht0 ht1

theorem stepZ_iterate_fix {t : ℤ} (ht0 : 0 ≤ t) (ht1 : t < 3600) (n : ℕ) :
    (headingStepZ t)^[n] t = t := by
  induction n with
  | zero => rfl
  | succ n ih => rw [Function.iterate_succ_apply', ih, stepZ_fix ht0 ht1]

theorem stepZ_reach_up {t : ℤ} (ht0 : 0 ≤ t) (ht1 : t < 3600) :
    ∀ n : ℕ, ∀ c : ℤ, 0 ≤ c → 0 < t - c → t - c ≤ 30 * n → t - c ≤ 1800 →
      (headingStepZ t)^[n] c = t := by
  intro n
  induction n with
  | zero => intro c _ h1 h2 _; omega
  | succ n ih =>
    intro c hc0 h1 h2 h3
    by_cases hsnap : t - c ≤ 30
    · rw [Function.iterate_succ_apply,
        stepZ_snap (by rw [abs_of_pos (by omega)]; omega) ht0 ht1]
      exact stepZ_iterate_fix ht0 ht1 n
    · rw [Function.iterate_succ_apply, stepZ_up (by omega) (by omega) hc0 ht1]
      exact ih (c + 30) (by omega) (by omega) (by omega) (by omega)

theorem stepZ_reach_down {t : ℤ} (ht0 : 0 ≤ t) (ht1 : t < 3600) :
    ∀ n : ℕ, ∀ c : ℤ, c < 3600 → 0 < c - t → c - t ≤ 30 * n → c - t ≤ 1800 →
      (headingStepZ t)^[n] c = t := by
  intro n
  induction n with
  | zero => intro c _ h1 h2 _; omega
  | succ n ih =>
    intro c hc1 h1 h2 h3
    by_cases hsnap : c - t ≤ 30
    · rw [Function.iterate_succ_apply,
        stepZ_snap (by rw [abs_of_neg (by omega)]; omega) ht0 ht1]
      exact stepZ_iterate_fix ht0 ht1 n
    · rw [Function.iterate_succ_apply, stepZ_down (by omega) (by omega) ht0 hc1]
      exact ih (c - 30) (by omega) (by omega) (by omega) (by omega)

theorem stepZ_desc {t : ℤ} (ht1 : t < 3600) :
    ∀ j : ℕ, ∀ c : ℤ, 30 * (j : ℤ) ≤ c → 1800 < t - c →
      (headingStepZ t)^[j] c = c - 30 * (j : ℤ) := by
  intro j
  induction j with
  | zero => intro c _ _; simp
  | succ j ih =>
    intro c hj hfar
    rw [Function.iterate_succ_apply, stepZ_far_pos hfar (by omega) ht1]
    rw [ih (c - 30) (by omega) (by omega)]
    push_cast
    ring

theorem stepZ_asc {t : ℤ} (ht0 : 0 ≤ t) :
    ∀ j : ℕ, ∀ c : ℤ, c + 30 * (j : ℤ) < 3600 → 1800 < c - t →
      (headingStepZ t)^[j] c = c + 30 * (j : ℤ) := by
  intro j
  induction j with
  | zero => intro c _ _; simp
  | succ j ih =>
    intro c hj hfar
    rw [Function.iterate_succ_apply, stepZ_far_neg hfar (by omega) ht0]
    rw [ih (c + 30) (by omega) (by omega)]
    push_cast
    ring

/-- From any pair of tenth-of-degree headings in range, 61 reconciliation ticks
reach the target exactly. -/
theorem stepZ_converge (t c : ℤ) (ht0 : 0 ≤ t) (ht1 : t < 3600)
    (hc0 : 0 ≤ c) (hc1 : c < 3600) : (headingStepZ t)^[61] c = t := by
  by_cases hsnap : |t - c| ≤ 30
  · rw [show (61 : ℕ) = 60 + 1 from rfl, Function.iterate_add_apply,
      Function.iterate_one, stepZ_snap hsnap ht0 ht1]
    exact stepZ_iterate_fix ht0 ht1 60
  · rcases abs_cases (t - c) with ⟨he, hp⟩ | ⟨he, hn⟩
    · rw [he] at hsnap
      by_cases hfar : t - c ≤ 1800
      · exact stepZ_reach_up ht0 ht1 61 c hc0 (by omega) (by omega) (by omega)
      · -- far-positive zone: descend to the 0/360 boundary, wrap, then approach
        set jn := c.toNat / 30 with hjn
        have hjn59 : jn ≤ 59 := by omega
        have hsplit : (61 : ℕ) = (60 - jn) + (1 + jn) := by omega
        rw [hsplit, Function.iterate_add_apply, Function.iterate_add_apply,
          Function.iterate_one]
        rw [stepZ_desc ht1 jn c (by omega) (by omega)]
        rw [stepZ_far_pos_wrap (by omega) (by omega) (by omega)]
        rcases lt_trichotomy t (c - 30 * (jn : ℤ) + 3570) with hcase | hcase | hcase
        · exact stepZ_reach_down ht0 ht1 (60 - jn) _ (by omega) (by omega) (by omega)
            (by omega)
        · rw [← hcase]
          exact stepZ_iterate_fix ht0 ht1 _
        · exact stepZ_reach_up ht0 ht1 (60 - jn) _ (by omega) (by omega) (by omega)
            (by omega)
    · rw [he] at hsnap
      by_cases hfar : c - t ≤ 1800
      · exact stepZ_reach_down ht0 ht1 61 c hc1 (by omega) (by omega) (by omega)
      · -- far-negative zone: climb to the 360/0 boundary, wrap, then approach
        set jn := (3599 - c).toNat / 30 with hjn
        have hjn59 : jn ≤ 59 := by omega
        have hsplit : (61 : ℕ) = (60 - jn) + (1 + jn) := by omega
        rw [hsplit, Function.iterate_add_apply, Function.iterate_add_apply,
          Function.iterate_one]
        rw [stepZ_asc ht0 jn c (by omega) (by omega)]
        rw [stepZ_far_neg_wrap (by omega) (by omega) (by omega)]
        rcases lt_trichotomy t (c + 30 * (jn : ℤ) + 30 - 3600) with hcase | hcase | hcase
        · exact stepZ_reach_down ht0 ht1 (60 - jn) _ (by omega) (by omega) (by omega)
            (by omega)
        · rw [← hcase]
          exact stepZ_iterate_fix ht0 ht1 _
        · exact stepZ_reach_up ht0 ht1 (60 - jn) _ (by omega) (by omega) (by omega)
            (by omega)

theorem heading_update_iterate_cast (tv : ℤ) (n : ℕ) :
    ∀ cv : ℤ, (heading_update ((tv : ℚ) / 10))^[n] ((cv : ℚ) / 10)
      = (((headingStepZ tv)^[n] cv : ℤ) : ℚ) / 10 := by
  induction n with
  | zero => intro cv; simp
  | succ n ih =>
    intro cv
    rw [Function.iterate_succ_apply, Function.iterate_succ_apply,
      heading_update_cast, ih]

theorem roundPy1_exists (x : ℚ) : ∃ n : ℤ, roundPy 1 x = (n : ℚ) / 10 :=
  ⟨⌊x * 10 + 1 / 2⌋, by unfold roundPy; norm_num⟩

/-- Every heading produced by `_heading_update` is an integral multiple of
0.1°, by the final `round(.., 1)`. -/
theorem heading_update_tenth (t c : ℚ) : ∃ n : ℤ, heading_update t c = (n : ℚ) / 10 := by
  unfold heading_update
  exact roundPy1_exists _

/-- **C10.** The per-tick heading update rounds to 1 decimal, so
reconciliation converges exactly for 0.1°-granular data: from any starting
heading and target that are integral multiples of 0.1° in [0,360), every
iterate from the 61st on equals the target (so the target is reached within at
most 61 ticks and stays fixed); and for any target that is not a multiple of
0.1° (e.g. 10.05°) no iterate ever equals the target, so the reconciliation
never completes. -/
theorem C10_heading_convergence :
    (∀ cv tv : ℤ, 0 ≤ cv → cv < 3600 → 0 ≤ tv → tv < 3600 →
      ∀ m : ℕ, 61 ≤ m →
        (heading_update ((tv : ℚ) / 10))^[m] ((cv : ℚ) / 10) = (tv : ℚ) / 10) ∧
    (∀ target start : ℚ, (∀ n : ℤ, target ≠ (n : ℚ) / 10) →
      ∀ k : ℕ, 1 ≤ k → (heading_update target)^[k] start ≠ target) := by
  constructor
  · intro cv tv hc0 hc1 ht0 ht1 m hm
    obtain ⟨k, rfl⟩ : ∃ k, m = k + 61 := ⟨m - 61, by omega⟩
    rw [Function.iterate_add_apply]
    rw [heading_update_iterate_cast tv 61 cv, stepZ_converge tv cv ht0 ht1 hc0 hc1]
    rw [heading_update_iterate_cast tv k tv, stepZ_iterate_fix ht0 ht1 k]
  · intro target start hng k hk
    obtain ⟨j, rfl⟩ : ∃ j, k = j + 1 := ⟨k - 1, by omega⟩
    rw [Function.iterate_succ_apply']
    obtain ⟨n, hn⟩ := heading_update_tenth target ((heading_update target)^[j] start)
    rw [hn]
    exact fun hcon => hng n hcon.symm

/-- Witness for C10: heading 350.0° reaches target 10.0° at tick 61, and the
0.05°-granular target 10.05° is never reached from 9.0°. -/
theorem C10_heading_convergence_witness :
    ((0 : ℤ) ≤ 3500 ∧ (3500 : ℤ) < 3600 ∧ (0 : ℤ) ≤ 100 ∧ (100 : ℤ) < 3600 ∧
      (61 : ℕ) ≤ 61 ∧
      (heading_update ((100 : ℚ) / 10))^[61] ((3500 : ℚ) / 10) = (100 : ℚ) / 10) ∧
    ((∀ n : ℤ, (201 / 20 : ℚ) ≠ (n : ℚ) / 10) ∧ (1 : ℕ) ≤ 1 ∧
      (heading_update (201 / 20))^[1] 9 ≠ (201 / 20 : ℚ)) := by
  have hno : ∀ n : ℤ, (201 / 20 : ℚ) ≠ (n : ℚ) / 10 := by
    intro n hcon
    rw [div_eq_div_iff (by norm_num) (by norm_num)] at hcon
    have h2 : (2010 : ℚ) = (n : ℚ) * 20 := by linarith
    have h3 : (2010 : ℤ) = n * 20 := by exact_mod_cast h2
    omega
  constructor
  · exact ⟨by decide, by decide, by decide, by decide, le_refl _,
      C10_heading_convergence.1 3500 100 (by decide) (by decide) (by decide) (by decide)
        61 (le_refl _)⟩
  · exact ⟨hno, le_refl _,
      C10_heading_convergence.2 (201 / 20) 9 hno 1 (le_refl _)⟩

/-! ## Coordinate conversion (`nmea_utils.py`) -/

/-- Python `abs` on rationals, written as an `if` so that the kernel can
evaluate it on concrete inputs. -/
def qabs (q : ℚ) : ℚ := if q < 0 then -q else q

theorem qabs_eq_abs (q : ℚ) : qabs q = |q| := by
  unfold qabs
  split_ifs with h
  · exact (abs_of_neg h).symm
  · exact (abs_of_nonneg (by linarith)).symm

/-- `f"{x:.pf}"` for the nonnegative values formatted here (idealised, ties
up): the integer digits, a dot, and exactly `p` fractional digits. -/
def fmtFixed (p : ℕ) (x : ℚ) : List Char :=
  let n := (⌊x * 10 ^ p + 1 / 2⌋).toNat
  natDigits (n / 10 ^ p) ++ '.' :: zfill p (natDigits (n % 10 ^ p))

/-- `ddd2nmeall` (nmea_utils.py lines 32-59): decimal degrees to the NMEA
`(d)ddmm.mmmmm` string.  `divmod(degrees * 60, 60)` yields the whole degrees
and the fractional minutes of the absolute value; `int(degrees * 100)` shifts
the degrees left of the two whole-minute digits. -/
def ddd2nmeallData (degrees : ℚ) (att : String) (hprec : Bool) : List Char :=
  let a := qabs degrees
  let d : ℤ := ⌊a⌋
  let minutes := a * 60 - (d : ℚ) * 60
  let degrees100 : ℤ := d * 100
  if hprec then
    if att = "lat" then zfill 12 (fmtFixed 7 ((degrees100 : ℚ) + minutes))
    else zfill 13 (fmtFixed 7 ((degrees100 : ℚ) + minutes))
  else
    if att = "lat" then zfill 10 (fmtFixed 5 ((degrees100 : ℚ) + minutes))
    else zfill 11 (fmtFixed 5 ((degrees100 : ℚ) + minutes))

/-- `ddd2nmeall` on `String`. -/
def ddd2nmeall (degrees : ℚ) (att : String) (hprec : Bool) : String :=
  ⟨ddd2nmeallData degrees att hprec⟩

/-- The name `nmea_gps.py` imports (`from nmea_utils import ddd2nmea`),
identified with `ddd2nmeall` at its default `hprec=False` (spec §4.2: 5
decimal places on minutes). -/
def ddd2nmea (degrees : ℚ) (att : String) : String := ddd2nmeall degrees att false

/-- Modelled from the spec: `ll2dir` is imported by `nmea_gps.py` but missing
from the sources; spec §4.2 fixes it: hemisphere `N` if latitude ≥ 0 else
`S`; `E` if longitude ≥ 0 else `W`. -/
def ll2dir (v : ℚ) (att : String) : Char :=
  if att = "lat" then (if 0 ≤ v then 'N' else 'S')
  else (if 0 ≤ v then 'E' else 'W')

/-- Python `float(..)` restricted to the unsigned decimal literals the NMEA
parser receives (digits with at most one dot); `none` models `ValueError`. -/
def pyFloat (l : List Char) : Option ℚ :=
  let ip := l.takeWhile (fun c => c ≠ '.')
  let rest := l.dropWhile (fun c => c ≠ '.')
  match rest with
  | [] =>
    if ip ≠ [] ∧ ∀ c ∈ ip, IsDigitCh c then some ((digitsVal ip : ℚ)) else none
  | _ :: fp =>
    if (ip ≠ [] ∨ fp ≠ []) ∧ (∀ c ∈ ip, IsDigitCh c) ∧ (∀ c ∈ fp, IsDigitCh c)
        ∧ '.' ∉ fp then
      some ((digitsVal ip : ℚ) + (digitsVal fp : ℚ) / 10 ^ fp.length)
    else none

/-- Python `pos.find(".")`: index of the first dot, `-1` when absent. -/
def strFindDot (l : List Char) : ℤ :=
  if '.' ∈ l then (l.takeWhile (fun c => c ≠ '.')).length else -1

/-- `nmeall2ddd` (nmea_utils.py lines 13-30): split the `(d)ddmm.mmmmm` string
two characters left of the dot, parse degrees and minutes, and return
`degrees + minutes/60` rounded to 10 decimals; `none` models the `except`
branch (`ValueError` when the dot index is below 4 or a piece fails to
parse). -/
def nmeall2dddData (pos : List Char) : Option ℚ :=
  let dpt := strFindDot pos
  if dpt < 4 then none
  else
    match pyFloat (pos.take (dpt - 2).toNat), pyFloat (pos.drop (dpt - 2).toNat) with
    | some posdeg, some posmin => some (roundPy 10 (posdeg + posmin / 60))
    | _, _ => none

/-- `nmeall2ddd` on `String`. -/
def nmeall2ddd (pos : String) : Option ℚ := nmeall2dddData pos.toList

/-- Fractional decimal digits needed to write `x` exactly (fuelled; `x` is a
whole number exactly when it equals its floor). -/
def fracDigitsAux : ℕ → ℚ → ℕ
  | 0, _ => 0
  | fuel + 1, x => if (⌊x⌋ : ℚ) = x then 0 else fracDigitsAux fuel (x * 10) + 1

/-- Python `repr`/f-string of a nonnegative float whose value is a terminating
decimal (every numeric field rendered in the claims is one): minimal digits,
at least one fractional digit (`90 ↦ "90.0"`, `0.92 ↦ "0.92"`). -/
def pyFloatRepr (x : ℚ) : List Char :=
  let j := Nat.max 1 (fracDigitsAux 18 x)
  let n := (⌊x * 10 ^ j⌋).toNat
  natDigits (n / 10 ^ j) ++ '.' :: zfill j (natDigits (n % 10 ^ j))

/-! ## Sentence renderers (nmea_gps.py classes) -/

/-- The `position` dictionary of `NmeaMsg` (decimal value, NMEA form and
hemisphere letter per axis). -/
structure Position where
  lat : ℚ
  lng : ℚ
  lat_nmea : String
  lng_nmea : String
  lat_dir : Char
  lng_dir : Char

/-- A UTC instant as the renderers consume it. -/
structure UtcTime where
  hour : ℕ
  minute : ℕ
  second : ℕ
  microsecond : ℕ

/-- `value.strftime('%H%M%S')`. -/
def strftimeHMS (t : UtcTime) : List Char :=
  zfill 2 (natDigits t.hour) ++ zfill 2 (natDigits t.minute) ++ zfill 2 (natDigits t.second)

/-- `Gpgga` (nmea_gps.py lines 474-556): fix-data sentence state. -/
structure Gpgga where
  sats_count : ℕ
  utc_time : List Char
  position : Position
  fix_quality : ℕ
  hdop : ℚ
  altitude : ℚ
  antenna_altitude_above_msl : ℚ
  dgps_last_update : List Char
  dgps_ref_station_id : List Char

/-- `Gpgga.__init__` with the source defaults (`fix_quality=1`, `hdop=0.92`,
empty DGPS fields); the `utc_time` setter stores `strftime('%H%M%S')`. -/
def Gpgga.init (sats_count : ℕ) (utc_date_time : UtcTime) (position : Position)
    (altitude : ℚ) (antenna_altitude_above_msl : ℚ) : Gpgga :=
  { sats_count := sats_count, utc_time := strftimeHMS utc_date_time,
    position := position, fix_quality := 1, hdop := 92 / 100,
    altitude := altitude, antenna_altitude_above_msl := antenna_altitude_above_msl,
    dgps_last_update := [], dgps_ref_station_id := [] }

/-- `Gpgga.__str__` (lines 549-556). -/
def Gpgga.toStr (g : Gpgga) : String :=
  let nmea_output :=
    "GPGGA," ++ String.mk g.utc_time ++ ".00," ++ g.position.lat_nmea ++ ","
      ++ String.mk [g.position.lat_dir] ++ "," ++ g.position.lng_nmea ++ ","
      ++ String.mk [g.position.lng_dir] ++ "," ++ String.mk (natDigits g.fix_quality)
      ++ "," ++ String.mk (zfill 2 (natDigits g.sats_count)) ++ ","
      ++ String.mk (pyFloatRepr g.hdop) ++ "," ++ String.mk (pyFloatRepr g.altitude)
      ++ ",M," ++ String.mk (pyFloatRepr g.antenna_altitude_above_msl) ++ ",M,"
      ++ String.mk g.dgps_last_update ++ "," ++ String.mk g.dgps_ref_station_id
  "$" ++ nmea_output ++ "*" ++ check_sum nmea_output ++ "\r\n"

/-- `Gphdt` (lines 856-880): true-heading sentence state. -/
structure Gphdt where
  heading : ℚ

/-- `Gphdt.__str__` (lines 878-880). -/
def Gphdt.toStr (g : Gphdt) : String :=
  let nmea_output := "GPHDT," ++ String.mk (pyFloatRepr g.heading) ++ ",T"
  "$" ++ nmea_output ++ "*" ++ check_sum nmea_output ++ "\r\n"

/-- The position-dictionary setup of `NmeaMsg.__init__` (lines 47-53). -/
def initPosition (lat lng : ℚ) : Position :=
  { lat := lat, lng := lng,
    lat_nmea := ddd2nmea lat "lat", lng_nmea := ddd2nmea lng "lng",
    lat_dir := ll2dir lat "lat", lng_dir := ll2dir lng "lng" }

/-- The `Gpgga` built by `NmeaMsg.__init__` (lines 84-88): satellite count
from the GPGSA selection, antenna height `altitude_init + 2.5`. -/
def NmeaMsg.initGpgga (sats_count : ℕ) (utc : UtcTime) (lat lng altitude_init : ℚ) :
    Gpgga :=
  Gpgga.init sats_count utc (initPosition lat lng) altitude_init (altitude_init + 5 / 2)

/-! ## Navigation engine tick (`NmeaMsg.__next__`, nmea_gps.py 120-189) -/

/-- `NmeaMsg._speed_update` (lines 309-330): 5-knot per-tick increment with
snap, rounded to 1 decimal. -/
def speed_update (speed_targeted speed : ℚ) : ℚ :=
  let speed_diff := speed_targeted - speed
  let speed_increment : ℚ := 5
  let speed_current :=
    if |speed_diff| ≤ speed_increment then speed_targeted
    else if speed_targeted > speed then speed + speed_increment
    else speed - speed_increment
  roundPy 1 speed_current

/-- `NmeaMsg._altitude_update` (lines 332-352): 3-metre per-tick increment
with snap, rounded to 3 decimals. -/
def altitude_update (altitude_targeted altitude : ℚ) : ℚ :=
  let altitude_diff := altitude_targeted - altitude
  let altitude_increment : ℚ := 3
  let altitude_current :=
    if |altitude_diff| ≤ altitude_increment then altitude_targeted
    else if altitude_targeted > altitude then altitude + altitude_increment
    else altitude - altitude_increment
  roundPy 3 altitude_current

/-- The engine-owned fields of `NmeaMsg` that the tick mutates. -/
structure NmeaState where
  utc_date_time : ℚ
  position : Position
  speed : ℚ
  speed_targeted : ℚ
  altitude : ℚ
  altitude_targeted : ℚ
  magvar : ℚ
  magvar_dec : ℚ
  magvar_direct : Char
  heading : ℚ
  heading_targeted : ℚ
  change_in_progress : Bool

/-- pyproj `Geod(ellps='WGS84').fwd`: lon, lat, azimuth, distance ↦
(lon_end, lat_end, back_azimuth).  External capability, passed in. -/
def GeodFwd : Type := ℚ → ℚ → ℚ → ℚ → ℚ × ℚ × ℚ

/-- pygeomag `GeoMag().calculate(glat, glon, alt, time).d`: signed declination
or a failure.  External capability, passed in. -/
def MagCalc : Type := ℚ → ℚ → ℚ → ℚ → Except Unit ℚ

/-- `NmeaMsg.position_update` (lines 231-258): advance the position along the
geodesic at `speed` knots (× 0.514444 m/s) for the elapsed time, on the
current heading. -/
def position_update (g : GeodFwd) (utc_date_time_prev : ℚ) (s : NmeaState) : NmeaState :=
  let time_delta := s.utc_date_time - utc_date_time_prev
  let speed_ms := s.speed * (514444 / 1000000)
  let distance := speed_ms * time_delta
  let r := g s.position.lng s.position.lat s.heading distance
  { s with position := { s.position with lng := r.1, lat := r.2.1 } }

/-- `NmeaMsg._magvar_update` (lines 354-378): on success store the absolute
declination, the signed declination and its hemisphere (`'E'` when positive,
else `'W'`); on any failure fall back to declination 0 and `'E'`, leaving
`magvar` at its last-known value.  A total function: the `except` clause means
the tick always continues. -/
def magvar_update (mcalc : MagCalc) (s : NmeaState) : NmeaState :=
  match mcalc s.position.lat s.position.lng s.altitude s.utc_date_time with
  | .ok d =>
    { s with magvar := |d|, magvar_dec := d,
             magvar_direct := if d > 0 then 'E' else 'W' }
  | .error _ => { s with magvar_dec := 0, magvar_direct := 'E' }

/-- Lines 131-135 of `__next__`: if the unit is moving, update the position
and recompute the magnetic variation. -/
def tickMove (g : GeodFwd) (mcalc : MagCalc) (utc_date_time_prev : ℚ)
    (s : NmeaState) : NmeaState :=
  if s.speed > 0 then magvar_update mcalc (position_update g utc_date_time_prev s) else s

/-- Lines 137-141 of `__next__`: heading reconciliation and progress flag. -/
def tickHeading (s : NmeaState) : NmeaState :=
  if s.heading ≠ s.heading_targeted then
    { s with change_in_progress := true,
             heading := heading_update s.heading_targeted s.heading }
  else s

/-- Lines 142-145 of `__next__`: speed reconciliation and progress flag. -/
def tickSpeed (s : NmeaState) : NmeaState :=
  if s.speed ≠ s.speed_targeted then
    { s with change_in_progress := true,
             speed := speed_update s.speed_targeted s.speed }
  else s

/-- Lines 147-150 of `__next__`: altitude reconciliation and progress flag. -/
def tickAltitude (s : NmeaState) : NmeaState :=
  if s.altitude ≠ s.altitude_targeted then
    { s with change_in_progress := true,
             altitude := altitude_update s.altitude_targeted s.altitude }
  else s

/-- Lines 152-158 of `__next__`: refresh the NMEA form and hemisphere letters
of the position dictionary. -/
def tickStrings (s : NmeaState) : NmeaState :=
  { s with position := { s.position with
      lat_nmea := ddd2nmea s.position.lat "lat",
      lng_nmea := ddd2nmea s.position.lng "lng",
      lat_dir := ll2dir s.position.lat "lat",
      lng_dir := ll2dir s.position.lng "lng" } }

/-- Lines 160-172 of `__next__`: clear the progress flag on the tick where all
three targets are reached. -/
def tickFlag (s : NmeaState) : NmeaState :=
  if s.change_in_progress = true ∧ s.heading = s.heading_targeted
      ∧ s.speed = s.speed_targeted ∧ s.altitude = s.altitude_targeted then
    { s with change_in_progress := false }
  else s

/-- One tick of `NmeaMsg.__next__` on the engine state (the per-sentence field
refresh of lines 174-188 copies engine fields into the renderers and is
modelled by rendering from the returned state). -/
def nmeaNext (g : GeodFwd) (mcalc : MagCalc) (now : ℚ) (s : NmeaState) : NmeaState :=
  tickFlag (tickStrings (tickAltitude (tickSpeed (tickHeading
    (tickMove g mcalc s.utc_date_time { s with utc_date_time := now })))))

/-- One sink tick with its external inputs. -/
structure TickInput where
  g : GeodFwd
  mcalc : MagCalc
  now : ℚ

/-- Repeated `next(nmea_obj)` calls, each with its own external inputs. -/
def runTicks (ticks : List TickInput) (s : NmeaState) : NmeaState :=
  ticks.foldl (fun st tk => nmeaNext tk.g tk.mcalc tk.now st) s

/-! ## Tick-stage lemmas -/

theorem magvar_update_core (mcalc : MagCalc) (s : NmeaState) :
    (magvar_update mcalc s).heading = s.heading ∧
    (magvar_update mcalc s).heading_targeted = s.heading_targeted ∧
    (magvar_update mcalc s).speed = s.speed ∧
    (magvar_update mcalc s).speed_targeted = s.speed_targeted ∧
    (magvar_update mcalc s).altitude = s.altitude ∧
    (magvar_update mcalc s).altitude_targeted = s.altitude_targeted ∧
    (magvar_update mcalc s).position = s.position ∧
    (magvar_update mcalc s).change_in_progress = s.change_in_progress ∧
    (magvar_update mcalc s).utc_date_time = s.utc_date_time := by
  unfold magvar_update
  cases mcalc s.position.lat s.position.lng s.altitude s.utc_date_time <;>
    exact ⟨rfl, rfl, rfl, rfl, rfl, rfl, rfl, rfl, rfl⟩

theorem magvar_update_fail (mcalc : MagCalc) (s : NmeaState)
    (hfail : ∀ la lo al ti, mcalc la lo al ti = Except.error ()) :
    magvar_update mcalc s = { s with magvar_dec := 0, magvar_direct := 'E' } := by
  unfold magvar_update
  rw [hfail]

theorem tickMove_core (g : GeodFwd) (mcalc : MagCalc) (tp : ℚ) (s : NmeaState) :
    (tickMove g mcalc tp s).heading = s.heading ∧
    (tickMove g mcalc tp s).heading_targeted = s.heading_targeted ∧
    (tickMove g mcalc tp s).speed = s.speed ∧
    (tickMove g mcalc tp s).speed_targeted = s.speed_targeted ∧
    (tickMove g mcalc tp s).altitude = s.altitude ∧
    (tickMove g mcalc tp s).altitude_targeted = s.altitude_targeted ∧
    (tickMove g mcalc tp s).change_in_progress = s.change_in_progress ∧
    (tickMove g mcalc tp s).utc_date_time = s.utc_date_time := by
  unfold tickMove
  by_cases hsp : s.speed > 0
  · rw [if_pos hsp]
    obtain ⟨m1, m2, m3, m4, m5, m6, m7, m8, m9⟩ :=
      magvar_update_core mcalc (position_update g tp s)
    exact ⟨m1, m2, m3, m4, m5, m6, m8, m9⟩
  · rw [if_neg hsp]
    exact ⟨rfl, rfl, rfl, rfl, rfl, rfl, rfl, rfl⟩

theorem tickMove_of_stopped (g : GeodFwd) (mcalc : MagCalc) (tp : ℚ) (s : NmeaState)
    (h : ¬ s.speed > 0) : tickMove g mcalc tp s = s := by
  unfold tickMove
  rw [if_neg h]

theorem tickMove_of_moving (g : GeodFwd) (mcalc : MagCalc) (tp : ℚ) (s : NmeaState)
    (h : s.speed > 0) :
    tickMove g mcalc tp s = magvar_update mcalc (position_update g tp s) := by
  unfold tickMove
  rw [if_pos h]

theorem tickHeading_core (s : NmeaState) :
    (tickHeading s).heading_targeted = s.heading_targeted ∧
    (tickHeading s).speed = s.speed ∧
    (tickHeading s).speed_targeted = s.speed_targeted ∧
    (tickHeading s).altitude = s.altitude ∧
    (tickHeading s).altitude_targeted = s.altitude_targeted ∧
    (tickHeading s).position = s.position ∧
    (tickHeading s).magvar = s.magvar ∧
    (tickHeading s).magvar_dec = s.magvar_dec ∧
    (tickHeading s).magvar_direct = s.magvar_direct ∧
    (tickHeading s).utc_date_time = s.utc_date_time := by
  unfold tickHeading
  split_ifs <;> exact ⟨rfl, rfl, rfl, rfl, rfl, rfl, rfl, rfl, rfl, rfl⟩

theorem tickHeading_heading (s : NmeaState) :
    (tickHeading s).heading =
      if s.heading ≠ s.heading_targeted then heading_update s.heading_targeted s.heading
      else s.heading := by
  unfold tickHeading
  split_ifs <;> rfl

theorem tickHeading_of_eq {s : NmeaState} (h : s.heading = s.heading_targeted) :
    tickHeading s = s := by
  unfold tickHeading
  rw [if_neg (fun hne => hne h)]

theorem tickSpeed_core (s : NmeaState) :
    (tickSpeed s).heading = s.heading ∧
    (tickSpeed s).heading_targeted = s.heading_targeted ∧
    (tickSpeed s).speed_targeted = s.speed_targeted ∧
    (tickSpeed s).altitude = s.altitude ∧
    (tickSpeed s).altitude_targeted = s.altitude_targeted ∧
    (tickSpeed s).position = s.position ∧
    (tickSpeed s).magvar = s.magvar ∧
    (tickSpeed s).magvar_dec = s.magvar_dec ∧
    (tickSpeed s).magvar_direct = s.magvar_direct ∧
    (tickSpeed s).utc_date_time = s.utc_date_time := by
  unfold tickSpeed
  split_ifs <;> exact ⟨rfl, rfl, rfl, rfl, rfl, rfl, rfl, rfl, rfl, rfl⟩

theorem tickSpeed_speed (s : NmeaState) :
    (tickSpeed s).speed =
      if s.speed ≠ s.speed_targeted then speed_update s.speed_targeted s.speed
      else s.speed := by
  unfold tickSpeed
  split_ifs <;> rfl

theorem tickSpeed_of_eq {s : NmeaState} (h : s.speed = s.speed_targeted) :
    tickSpeed s = s := by
  unfold tickSpeed
  rw [if_neg (fun hne => hne h)]

theorem tickAltitude_core (s : NmeaState) :
    (tickAltitude s).heading = s.heading ∧
    (tickAltitude s).heading_targeted = s.heading_targeted ∧
    (tickAltitude s).speed = s.speed ∧
    (tickAltitude s).speed_targeted = s.speed_targeted ∧
    (tickAltitude s).altitude_targeted = s.altitude_targeted ∧
    (tickAltitude s).position = s.position ∧
    (tickAltitude s).magvar = s.magvar ∧
    (tickAltitude s).magvar_dec = s.magvar_dec ∧
    (tickAltitude s).magvar_direct = s.magvar_direct ∧
    (tickAltitude s).utc_date_time = s.utc_date_time := by
  unfold tickAltitude
  split_ifs <;> exact ⟨rfl, rfl, rfl, rfl, rfl, rfl, rfl, rfl, rfl, rfl⟩

theorem tickAltitude_altitude (s : NmeaState) :
    (tickAltitude s).altitude =
      if s.altitude ≠ s.altitude_targeted then altitude_update s.altitude_targeted s.altitude
      else s.altitude := by
  unfold tickAltitude
  split_ifs <;> rfl

theorem tickAltitude_of_eq {s : NmeaState} (h : s.altitude = s.altitude_targeted) :
    tickAltitude s = s := by
  unfold tickAltitude
  rw [if_neg (fun hne => hne h)]

theorem tickFlag_core (s : NmeaState) :
    (tickFlag s).heading = s.heading ∧
    (tickFlag s).heading_targeted = s.heading_targeted ∧
    (tickFlag s).speed = s.speed ∧
    (tickFlag s).speed_targeted = s.speed_targeted ∧
    (tickFlag s).altitude = s.altitude ∧
    (tickFlag s).altitude_targeted = s.altitude_targeted ∧
    (tickFlag s).position = s.position ∧
    (tickFlag s).magvar = s.magvar ∧
    (tickFlag s).magvar_dec = s.magvar_dec ∧
    (tickFlag s).magvar_direct = s.magvar_direct ∧
    (tickFlag s).utc_date_time = s.utc_date_time := by
  unfold tickFlag
  split_ifs <;> exact ⟨rfl, rfl, rfl, rfl, rfl, rfl, rfl, rfl, rfl, rfl, rfl⟩

theorem nmeaNext_at_target (g : GeodFwd) (mcalc : MagCalc) (now : ℚ) (s : NmeaState)
    (hh : s.heading = s.heading_targeted) (hs : s.speed = s.speed_targeted)
    (ha : s.altitude = s.altitude_targeted) :
    (nmeaNext g mcalc now s).heading = s.heading ∧
    (nmeaNext g mcalc now s).speed = s.speed ∧
    (nmeaNext g mcalc now s).altitude = s.altitude ∧
    (nmeaNext g mcalc now s).heading_targeted = s.heading_targeted ∧
    (nmeaNext g mcalc now s).speed_targeted = s.speed_targeted ∧
    (nmeaNext g mcalc now s).altitude_targeted = s.altitude_targeted := by
  unfold nmeaNext
  obtain ⟨a1, a2, a3, a4, a5, a6, a7, a8⟩ :=
    tickMove_core g mcalc s.utc_date_time { s with utc_date_time := now }
  set s2 := tickMove g mcalc s.utc_date_time { s with utc_date_time := now } with hs2
  have e3 : tickHeading s2 = s2 := tickHeading_of_eq (by rw [a1, a2]; exact hh)
  have e4 : tickSpeed s2 = s2 := tickSpeed_of_eq (by rw [a3, a4]; exact hs)
  have e5 : tickAltitude s2 = s2 := tickAltitude_of_eq (by rw [a5, a6]; exact ha)
  rw [e3, e4, e5]
  obtain ⟨f1, f2, f3, f4, f5, f6, f7, f8, f9, f10, f11⟩ := tickFlag_core (tickStrings s2)
  exact ⟨f1.trans a1, f3.trans a3, f5.trans a5, f2.trans a2, f4.trans a4, f6.trans a6⟩

/-- **C7.** Once heading, speed and altitude equal their targets, every further
tick leaves those three fields (and their targets) unchanged — reconciliation
is idempotent at target. -/
theorem C7_idempotent_at_target (ticks : List TickInput) (s : NmeaState)
    (hh : s.heading = s.heading_targeted) (hs : s.speed = s.speed_targeted)
    (ha : s.altitude = s.altitude_targeted) :
    (runTicks ticks s).heading = s.heading ∧
    (runTicks ticks s).speed = s.speed ∧
    (runTicks ticks s).altitude = s.altitude := by
  induction ticks generalizing s with
  | nil => exact ⟨rfl, rfl, rfl⟩
  | cons tk ticks ih =>
    obtain ⟨b1, b2, b3, b4, b5, b6⟩ := nmeaNext_at_target tk.g tk.mcalc tk.now s hh hs ha
    have hh2 : (nmeaNext tk.g tk.mcalc tk.now s).heading
        = (nmeaNext tk.g tk.mcalc tk.now s).heading_targeted := by
      rw [b1, b4]
      exact hh
    have hs2 : (nmeaNext tk.g tk.mcalc tk.now s).speed
        = (nmeaNext tk.g tk.mcalc tk.now s).speed_targeted := by
      rw [b2, b5]
      exact hs
    have ha2 : (nmeaNext tk.g tk.mcalc tk.now s).altitude
        = (nmeaNext tk.g tk.mcalc tk.now s).altitude_targeted := by
      rw [b3, b6]
      exact ha
    obtain ⟨c1, c2, c3⟩ := ih (nmeaNext tk.g tk.mcalc tk.now s) hh2 hs2 ha2
    exact ⟨c1.trans b1, c2.trans b2, c3.trans b3⟩


/-- A concrete converged state for the C7 witness. -/
def sC7 : NmeaState :=
  { utc_date_time := 0,
    position := { lat := 50, lng := 8, lat_nmea := "", lng_nmea := "",
                  lat_dir := 'N', lng_dir := 'E' },
    speed := 5, speed_targeted := 5, altitude := 100, altitude_targeted := 100,
    magvar := 2, magvar_dec := 2, magvar_direct := 'E',
    heading := 90, heading_targeted := 90, change_in_progress := false }

/-- A concrete tick input for witnesses. -/
def tkC7 : TickInput :=
  { g := fun _ _ _ _ => (1, 2, 3), mcalc := fun _ _ _ _ => Except.ok 1, now := 7 }

/-- Witness for C7 on a concrete converged state and one concrete tick. -/
theorem C7_idempotent_at_target_witness :
    (sC7.heading = sC7.heading_targeted ∧ sC7.speed = sC7.speed_targeted ∧
      sC7.altitude = sC7.altitude_targeted) ∧
    ((runTicks [tkC7] sC7).heading = sC7.heading ∧
      (runTicks [tkC7] sC7).speed = sC7.speed ∧
      (runTicks [tkC7] sC7).altitude = sC7.altitude) :=
  ⟨⟨rfl, rfl, rfl⟩, C7_idempotent_at_target [tkC7] sC7 rfl rfl rfl⟩

theorem tickStrings_core (s : NmeaState) :
    (tickStrings s).position.lat = s.position.lat ∧
    (tickStrings s).position.lng = s.position.lng ∧
    (tickStrings s).speed = s.speed ∧
    (tickStrings s).speed_targeted = s.speed_targeted ∧
    (tickStrings s).heading = s.heading ∧
    (tickStrings s).altitude = s.altitude ∧
    (tickStrings s).magvar = s.magvar ∧
    (tickStrings s).magvar_dec = s.magvar_dec ∧
    (tickStrings s).magvar_direct = s.magvar_direct ∧
    (tickStrings s).utc_date_time = s.utc_date_time :=
  ⟨rfl, rfl, rfl, rfl, rfl, rfl, rfl, rfl, rfl, rfl⟩

theorem nmeaNext_stationary (g : GeodFwd) (mcalc : MagCalc) (now : ℚ) (s : NmeaState)
    (h0 : s.speed = 0) (ht : s.speed_targeted = 0) :
    (nmeaNext g mcalc now s).position.lat = s.position.lat ∧
    (nmeaNext g mcalc now s).position.lng = s.position.lng ∧
    (nmeaNext g mcalc now s).speed = 0 ∧
    (nmeaNext g mcalc now s).speed_targeted = 0 := by
  unfold nmeaNext
  rw [tickMove_of_stopped g mcalc s.utc_date_time { s with utc_date_time := now }
      (by show ¬ s.speed > 0; rw [h0]; exact lt_irrefl 0)]
  obtain ⟨a1, a2, a3, a4, a5, a6, a7, a8, a9, a10⟩ :=
    tickHeading_core { s with utc_date_time := now }
  have e4 : tickSpeed (tickHeading { s with utc_date_time := now })
      = tickHeading { s with utc_date_time := now } :=
    tickSpeed_of_eq (by rw [a2, a3]; show s.speed = s.speed_targeted; rw [h0, ht])
  rw [e4]
  obtain ⟨b1, b2, b3, b4, b5, b6, b7, b8, b9, b10⟩ :=
    tickAltitude_core (tickHeading { s with utc_date_time := now })
  obtain ⟨c1, c2, c3, c4, c5, c6, c7, c8, c9, c10⟩ :=
    tickStrings_core (tickAltitude (tickHeading { s with utc_date_time := now }))
  obtain ⟨f1, f2, f3, f4, f5, f6, f7, f8, f9, f10, f11⟩ :=
    tickFlag_core (tickStrings (tickAltitude (tickHeading { s with utc_date_time := now })))
  refine ⟨?_, ?_, ?_, ?_⟩
  · rw [congrArg Position.lat f7, c1, congrArg Position.lat b6, congrArg Position.lat a6]
  · rw [congrArg Position.lng f7, c2, congrArg Position.lng b6, congrArg Position.lng a6]
  · rw [f3, c3, b3, a2]
    exact h0
  · rw [f4, c4, b4, a3]
    exact ht

/-- **C8.** While the speed is 0 and commanded to stay 0, repeated ticks never
change the position. -/
theorem C8_speed_zero_stationary (ticks : List TickInput) (s : NmeaState)
    (h0 : s.speed = 0) (ht : s.speed_targeted = 0) :
    (runTicks ticks s).position.lat = s.position.lat ∧
    (runTicks ticks s).position.lng = s.position.lng := by
  induction ticks generalizing s with
  | nil => exact ⟨rfl, rfl⟩
  | cons tk ticks ih =>
    obtain ⟨b1, b2, b3, b4⟩ := nmeaNext_stationary tk.g tk.mcalc tk.now s h0 ht
    obtain ⟨c1, c2⟩ := ih (nmeaNext tk.g tk.mcalc tk.now s) b3 b4
    exact ⟨c1.trans b1, c2.trans b2⟩

/-- A concrete stopped state for the C8 witness. -/
def sC8 : NmeaState :=
  { utc_date_time := 0,
    position := { lat := 50, lng := 8, lat_nmea := "", lng_nmea := "",
                  lat_dir := 'N', lng_dir := 'E' },
    speed := 0, speed_targeted := 0, altitude := 100, altitude_targeted := 50,
    magvar := 2, magvar_dec := 2, magvar_direct := 'E',
    heading := 90, heading_targeted := 180, change_in_progress := false }

/-- A concrete tick input for the C8 witness. -/
def tkC8 : TickInput :=
  { g := fun _ _ _ _ => (9, 9, 9), mcalc := fun _ _ _ _ => Except.ok 3, now := 11 }

/-- Witness for C8 on a concrete stopped state and one concrete tick. -/
theorem C8_speed_zero_stationary_witness :
    (sC8.speed = 0 ∧ sC8.speed_targeted = 0) ∧
    ((runTicks [tkC8] sC8).position.lat = sC8.position.lat ∧
      (runTicks [tkC8] sC8).position.lng = sC8.position.lng) :=
  ⟨⟨rfl, rfl⟩, C8_speed_zero_stationary [tkC8] sC8 rfl rfl⟩

theorem tickRest_fields (s2 : NmeaState) :
    (tickFlag (tickStrings (tickAltitude (tickSpeed (tickHeading s2))))).magvar_dec
      = s2.magvar_dec ∧
    (tickFlag (tickStrings (tickAltitude (tickSpeed (tickHeading s2))))).magvar_direct
      = s2.magvar_direct ∧
    (tickFlag (tickStrings (tickAltitude (tickSpeed (tickHeading s2))))).magvar
      = s2.magvar ∧
    (tickFlag (tickStrings (tickAltitude (tickSpeed (tickHeading s2))))).utc_date_time
      = s2.utc_date_time ∧
    (tickFlag (tickStrings (tickAltitude (tickSpeed (tickHeading s2))))).heading
      = (if s2.heading ≠ s2.heading_targeted then heading_update s2.heading_targeted s2.heading
         else s2.heading) ∧
    (tickFlag (tickStrings (tickAltitude (tickSpeed (tickHeading s2))))).speed
      = (if s2.speed ≠ s2.speed_targeted then speed_update s2.speed_targeted s2.speed
         else s2.speed) ∧
    (tickFlag (tickStrings (tickAltitude (tickSpeed (tickHeading s2))))).altitude
      = (if s2.altitude ≠ s2.altitude_targeted
         then altitude_update s2.altitude_targeted s2.altitude else s2.altitude) := by
  obtain ⟨h1, h2, h3, h4, h5, h6, h7, h8, h9, h10⟩ := tickHeading_core s2
  obtain ⟨a1, a2, a3, a4, a5, a6, a7, a8, a9, a10⟩ := tickSpeed_core (tickHeading s2)
  obtain ⟨b1, b2, b3, b4, b5, b6, b7, b8, b9, b10⟩ :=
    tickAltitude_core (tickSpeed (tickHeading s2))
  obtain ⟨c1, c2, c3, c4, c5, c6, c7, c8, c9, c10⟩ :=
    tickStrings_core (tickAltitude (tickSpeed (tickHeading s2)))
  obtain ⟨f1, f2, f3, f4, f5, f6, f7, f8, f9, f10, f11⟩ :=
    tickFlag_core (tickStrings (tickAltitude (tickSpeed (tickHeading s2))))
  refine ⟨?_, ?_, ?_, ?_, ?_, ?_, ?_⟩
  · rw [f9, c8, b8, a8, h8]
  · rw [f10, c9, b9, a9, h9]
  · rw [f8, c7, b7, a7, h7]
  · rw [f11, c10, b10, a10, h10]
  · rw [f1, c5, b1, a1, tickHeading_heading]
  · rw [f3, c3, b3, tickSpeed_speed, h2, h3]
  · rw [f5, c6, tickAltitude_altitude, a4, a5, h4, h5]

/-- **C9.** When the unit is moving and the magnetic-variation lookup fails,
the tick never aborts: the failure is caught, the declination falls back to 0
with direction `'E'` while `magvar` keeps its last-known value, and the tick
runs to completion (the clock advances and the heading/speed/altitude
reconciliations are applied as on any other tick). -/
theorem C9_magvar_failure_fallback (g : GeodFwd) (now : ℚ) (s : NmeaState)
    (mcalc : MagCalc) (hsp : s.speed > 0)
    (hfail : ∀ la lo al ti, mcalc la lo al ti = Except.error ()) :
    (nmeaNext g mcalc now s).magvar_dec = 0 ∧
    (nmeaNext g mcalc now s).magvar_direct = 'E' ∧
    (nmeaNext g mcalc now s).magvar = s.magvar ∧
    (nmeaNext g mcalc now s).utc_date_time = now ∧
    (nmeaNext g mcalc now s).heading =
      (if s.heading ≠ s.heading_targeted then heading_update s.heading_targeted s.heading
       else s.heading) ∧
    (nmeaNext g mcalc now s).speed =
      (if s.speed ≠ s.speed_targeted then speed_update s.speed_targeted s.speed
       else s.speed) ∧
    (nmeaNext g mcalc now s).altitude =
      (if s.altitude ≠ s.altitude_targeted
       then altitude_update s.altitude_targeted s.altitude else s.altitude) := by
  unfold nmeaNext
  rw [tickMove_of_moving g mcalc s.utc_date_time { s with utc_date_time := now }
      (by show s.speed > 0; exact hsp)]
  rw [magvar_update_fail mcalc _ hfail]
  obtain ⟨r1, r2, r3, r4, r5, r6, r7⟩ := tickRest_fields
    { position_update g s.utc_date_time { s with utc_date_time := now } with
      magvar_dec := 0, magvar_direct := 'E' }
  exact ⟨r1.trans rfl, r2.trans rfl, r3.trans rfl, r4.trans rfl, r5.trans rfl,
    r6.trans rfl, r7.trans rfl⟩

/-- A concrete moving state for the C9 witness. -/
def sC9 : NmeaState :=
  { utc_date_time := 0,
    position := { lat := 50, lng := 8, lat_nmea := "", lng_nmea := "",
                  lat_dir := 'N', lng_dir := 'E' },
    speed := 1, speed_targeted := 1, altitude := 100, altitude_targeted := 100,
    magvar := 2, magvar_dec := 2, magvar_direct := 'E',
    heading := 90, heading_targeted := 90, change_in_progress := false }

/-- An always-failing magnetic-variation lookup. -/
def mcalcFail : MagCalc := fun _ _ _ _ => Except.error ()

/-- A concrete geodesic model for the C9 witness. -/
def gC9 : GeodFwd := fun _ _ _ _ => (9, 51, 270)

/-- Witness for C9 on a concrete moving state with the failing lookup. -/
theorem C9_magvar_failure_fallback_witness :
    (sC9.speed > 0 ∧ (∀ la lo al ti, mcalcFail la lo al ti = Except.error ())) ∧
    ((nmeaNext gC9 mcalcFail 5 sC9).magvar_dec = 0 ∧
      (nmeaNext gC9 mcalcFail 5 sC9).magvar_direct = 'E' ∧
      (nmeaNext gC9 mcalcFail 5 sC9).magvar = sC9.magvar ∧
      (nmeaNext gC9 mcalcFail 5 sC9).utc_date_time = 5 ∧
      (nmeaNext gC9 mcalcFail 5 sC9).heading =
        (if sC9.heading ≠ sC9.heading_targeted
         then heading_update sC9.heading_targeted sC9.heading else sC9.heading) ∧
      (nmeaNext gC9 mcalcFail 5 sC9).speed =
        (if sC9.speed ≠ sC9.speed_targeted
         then speed_update sC9.speed_targeted sC9.speed else sC9.speed) ∧
      (nmeaNext gC9 mcalcFail 5 sC9).altitude =
        (if sC9.altitude ≠ sC9.altitude_targeted
         then altitude_update sC9.altitude_targeted sC9.altitude else sC9.altitude)) :=
  ⟨⟨one_pos, fun _ _ _ _ => rfl⟩,
    C9_magvar_failure_fallback gC9 5 sC9 mcalcFail one_pos (fun _ _ _ _ => rfl)⟩

/-! ## Concrete sentence renderings (C1) -/

theorem qabs_of_nonneg (q : ℚ) (h : 0 ≤ q) : qabs q = q := by
  unfold qabs
  rw [if_neg (by linarith)]

theorem fracDigitsAux_int (x : ℚ) (fuel : ℕ) (h : (⌊x⌋ : ℚ) = x) :
    fracDigitsAux (fuel + 1) x = 0 := by
  show (if (⌊x⌋ : ℚ) = x then 0 else fracDigitsAux fuel (x * 10) + 1) = 0
  rw [if_pos h]

theorem fracDigitsAux_step (x : ℚ) (fuel : ℕ) (h : ¬ (⌊x⌋ : ℚ) = x) :
    fracDigitsAux (fuel + 1) x = fracDigitsAux fuel (x * 10) + 1 := by
  show (if (⌊x⌋ : ℚ) = x then 0 else fracDigitsAux fuel (x * 10) + 1) = _
  rw [if_neg h]

theorem pyFloatRepr_eval (x : ℚ) (j n : ℕ) (hj : Nat.max 1 (fracDigitsAux 18 x) = j)
    (hn : ⌊x * 10 ^ j⌋ = (n : ℤ)) :
    pyFloatRepr x = natDigits (n / 10 ^ j) ++ '.' :: zfill j (natDigits (n % 10 ^ j)) := by
  simp only [pyFloatRepr]
  rw [hj, hn]
  norm_num

theorem fdC1_hdop : fracDigitsAux 18 (92 / 100 : ℚ) = 2 := by
  rw [show (18 : ℕ) = 17 + 1 from rfl, fracDigitsAux_step (92 / 100) 17 (by norm_num),
    show (17 : ℕ) = 16 + 1 from rfl, fracDigitsAux_step (92 / 100 * 10) 16 (by norm_num),
    show (16 : ℕ) = 15 + 1 from rfl, fracDigitsAux_int (92 / 100 * 10 * 10) 15 (by norm_num)]

theorem fdC1_alt : fracDigitsAux 18 (152 / 10 : ℚ) = 1 := by
  rw [show (18 : ℕ) = 17 + 1 from rfl, fracDigitsAux_step (152 / 10) 17 (by norm_num),
    show (17 : ℕ) = 16 + 1 from rfl, fracDigitsAux_int (152 / 10 * 10) 16 (by norm_num)]

theorem fdC1_ant : fracDigitsAux 18 (152 / 10 + 5 / 2 : ℚ) = 1 := by
  rw [show (18 : ℕ) = 17 + 1 from rfl, fracDigitsAux_step (152 / 10 + 5 / 2) 17 (by norm_num),
    show (17 : ℕ) = 16 + 1 from rfl,
    fracDigitsAux_int ((152 / 10 + 5 / 2) * 10) 16 (by norm_num)]

theorem fdC1_heading : fracDigitsAux 18 (90 : ℚ) = 0 := by
  rw [show (18 : ℕ) = 17 + 1 from rfl, fracDigitsAux_int 90 17 (by norm_num)]

theorem pyReprC1_hdop : pyFloatRepr (92 / 100 : ℚ) = ['0', '.', '9', '2'] := by
  rw [pyFloatRepr_eval (92 / 100) 2 92 (by rw [fdC1_hdop]; decide) (by norm_num)]
  decide

theorem pyReprC1_alt : pyFloatRepr (152 / 10 : ℚ) = ['1', '5', '.', '2'] := by
  rw [pyFloatRepr_eval (152 / 10) 1 152 (by rw [fdC1_alt]; decide) (by norm_num)]
  decide

theorem pyReprC1_ant : pyFloatRepr (152 / 10 + 5 / 2 : ℚ) = ['1', '7', '.', '7'] := by
  rw [pyFloatRepr_eval (152 / 10 + 5 / 2) 1 177 (by rw [fdC1_ant]; decide) (by norm_num)]
  decide

theorem pyReprC1_heading : pyFloatRepr (90 : ℚ) = ['9', '0', '.', '0'] := by
  rw [pyFloatRepr_eval 90 1 900 (by rw [fdC1_heading]; decide) (by norm_num)]
  decide

theorem ll2dir_lat_pos (v : ℚ) (h : 0 ≤ v) : ll2dir v "lat" = 'N' := by
  unfold ll2dir
  rw [if_pos rfl, if_pos h]

theorem ll2dir_lng_pos (v : ℚ) (h : 0 ≤ v) : ll2dir v "lng" = 'E' := by
  unfold ll2dir
  rw [if_neg (by decide), if_pos h]

theorem latC1_stated : ddd2nmeallData (500386 / 10000) "lat" false
    = ['5', '0', '0', '2', '.', '3', '1', '6', '0', '0'] := by
  simp only [ddd2nmeallData, fmtFixed]
  rw [qabs_of_nonneg (500386 / 10000) (by norm_num)]
  norm_num [Int.toNat_ofNat]
  decide

theorem lngC1_stated : ddd2nmeallData (85596 / 10000) "lng" false
    = ['0', '0', '8', '3', '3', '.', '5', '7', '6', '0', '0'] := by
  simp only [ddd2nmeallData, fmtFixed]
  rw [qabs_of_nonneg (85596 / 10000) (by norm_num)]
  norm_num [Int.toNat_ofNat]
  decide

theorem latC1_fixture : ddd2nmeallData (5003858955064544 / 100000000000000) "lat" false
    = ['5', '0', '0', '2', '.', '3', '1', '5', '3', '7'] := by
  simp only [ddd2nmeallData, fmtFixed]
  rw [qabs_of_nonneg (5003858955064544 / 100000000000000) (by norm_num)]
  norm_num [Int.toNat_ofNat]
  decide

theorem lngC1_fixture : ddd2nmeallData (8559602450767759 / 1000000000000000) "lng" false
    = ['0', '0', '8', '3', '3', '.', '5', '7', '6', '1', '5'] := by
  simp only [ddd2nmeallData, fmtFixed]
  rw [qabs_of_nonneg (8559602450767759 / 1000000000000000) (by norm_num)]
  norm_num [Int.toNat_ofNat]
  decide

/-- **C1 counterexample.** Constructing the fix-data sentence at the literally
stated coordinates 50.0386°N / 8.5596°E renders the NMEA forms `5002.31600` /
`00833.57600` (0.0386° is exactly 2.316 minutes), so the GPGGA sentence is not
the one the claim states (whose checksum per §4.1 is `68`). -/
theorem C1_counterexample :
    (NmeaMsg.initGpgga 12 ⟨8, 38, 40, 855497⟩ (500386 / 10000) (85596 / 10000)
        (152 / 10)).toStr
      = "$GPGGA,083840.00,5002.31600,N,00833.57600,E,1,12,0.92,15.2,M,17.7,M,,*6B\r\n" ∧
    ("$GPGGA,083840.00,5002.31600,N,00833.57600,E,1,12,0.92,15.2,M,17.7,M,,*6B\r\n"
        : String)
      ≠ "$GPGGA,083840.00,5002.31537,N,00833.57615,E,1,12,0.92,15.2,M,17.7,M,,*68\r\n" := by
  constructor
  · simp only [NmeaMsg.initGpgga, Gpgga.init, Gpgga.toStr, initPosition, ddd2nmea,
      ddd2nmeall]
    rw [latC1_stated, lngC1_stated, pyReprC1_hdop, pyReprC1_alt, pyReprC1_ant,
      ll2dir_lat_pos (500386 / 10000) (by norm_num),
      ll2dir_lng_pos (85596 / 10000) (by norm_num)]
    decide
  · decide

/-- **C1 (amended).** At the exact fixture coordinates 50.03858955064544°N /
8.559602450767759°E (whose NMEA forms are `5002.31537`/`00833.57615`; the
claim's 50.0386/8.5596 are their 4-decimal roundings), the engine construction
with 12 active satellites and the default 0.92 horizontal precision renders
exactly the claimed GPGGA byte string with checksum 68, and the true-heading
sentence at 90° renders exactly `$GPHDT,90.0,T*0C\r\n`. -/
theorem C1_fix_data_render :
    (NmeaMsg.initGpgga 12 ⟨8, 38, 40, 855497⟩ (5003858955064544 / 100000000000000)
        (8559602450767759 / 1000000000000000) (152 / 10)).toStr
      = "$GPGGA,083840.00,5002.31537,N,00833.57615,E,1,12,0.92,15.2,M,17.7,M,,*68\r\n" ∧
    Gphdt.toStr ⟨90⟩ = "$GPHDT,90.0,T*0C\r\n" := by
  constructor
  · simp only [NmeaMsg.initGpgga, Gpgga.init, Gpgga.toStr, initPosition, ddd2nmea,
      ddd2nmeall]
    rw [latC1_fixture, lngC1_fixture, pyReprC1_hdop, pyReprC1_alt, pyReprC1_ant,
      ll2dir_lat_pos (5003858955064544 / 100000000000000) (by norm_num),
      ll2dir_lng_pos (8559602450767759 / 1000000000000000) (by norm_num)]
    decide
  · simp only [Gphdt.toStr]
    rw [pyReprC1_heading]
    decide

/-! ## Satellite sentences (C4) -/

/-- `random.sample(population, k)` semantics: a draw of `k` distinct elements
from the population, without replacement (`ValueError`, hence no constructed
value, when `k` exceeds the population size). -/
def IsSample (population : List String) (k : ℕ) (s : List String) : Prop :=
  s.length = k ∧ s.Nodup ∧ ∀ x ∈ s, x ∈ population

instance (population : List String) (k : ℕ) (s : List String) :
    Decidable (IsSample population k s) := by
  unfold IsSample
  infer_instance

/-- `Gpgsa` (nmea_gps.py lines 691-754): the `sats_ids` setter stores
`random.sample(value, k=random.randint(4, 12))`. -/
structure Gpgsa where
  sats_ids : List String

/-- `Gpgsa.sats_count` (lines 742-744). -/
def Gpgsa.sats_count (g : Gpgsa) : ℕ := g.sats_ids.length

/-- One `Gpgsv` sentence's fields (lines 806-853). -/
structure Gpgsv where
  num_of_gsv_in_group : ℕ
  sentence_num : ℕ
  sats_total : ℕ
  sats_in_sentence : ℕ
  sats_ids : List String

/-- The `sats_total` setter of `GpgsvGroup` (lines 789-798): totals below 4
are clamped to 4. -/
def gpgsvSatsTotal (value : ℕ) : ℕ := if value < 4 then 4 else value

/-- The loop of `GpgsvGroup.__init__` (lines 763-787): `math.ceil(N/4)` — that
is `(N+3)/4` — sentences of 4 satellites each, except the last which carries
`N % 4` when `N` is not a multiple of 4; the shared iterator hands each
sentence its next block of ids. -/
def gpgsvGroupInstances (sats_total : ℕ) (sats_ids : List String) : List Gpgsv :=
  let num_of_gsv_in_group := (sats_total + 3) / 4
  (List.range num_of_gsv_in_group).map (fun i =>
    let sentence_num := i + 1
    let sats_in_sentence :=
      if sentence_num = num_of_gsv_in_group ∧ sats_total % 4 ≠ 0 then sats_total % 4
      else 4
    { num_of_gsv_in_group := num_of_gsv_in_group, sentence_num := sentence_num,
      sats_total := sats_total, sats_in_sentence := sats_in_sentence,
      sats_ids := (sats_ids.drop (4 * i)).take sats_in_sentence })

theorem sum_map_const {α : Type} (l : List α) (c : ℕ) :
    (l.map (fun _ => c)).sum = l.length * c := by
  induction l with
  | nil => simp
  | cons x l ih =>
    simp only [List.map_cons, List.sum_cons, ih, List.length_cons]
    ring

theorem nodup_subset_length_le (sel ids : List String) (hnd : sel.Nodup)
    (hsub : ∀ x ∈ sel, x ∈ ids) : sel.length ≤ ids.length := by
  have h1 : sel.toFinset.card = sel.length := List.toFinset_card_of_nodup hnd
  have h2 : sel.toFinset ⊆ ids.toFinset := by
    intro x hx
    rw [List.mem_toFinset] at hx ⊢
    exact hsub x hx
  have h3 : sel.toFinset.card ≤ ids.toFinset.card := Finset.card_le_card h2
  have h4 : ids.toFinset.card ≤ ids.length := ids.toFinset_card_le
  omega

/-- **C4.** For any constructed satellite set of `N ≥ 4` distinct ids, every
successful GPGSA selection (a `random.sample` draw of `k ∈ [4,12]` ids) has
between 4 and 12 ids, no more than the set holds; and the GPGSV group has
exactly `⌈N/4⌉` sentences whose per-sentence satellite counts sum to `N`. -/
theorem C4_satellite_invariants (N : ℕ) (hN : 4 ≤ N) (ids : List String)
    (hlen : ids.length = N) (hnodup : ids.Nodup)
    (k : ℕ) (hk4 : 4 ≤ k) (hk12 : k ≤ 12) (sel : List String)
    (hs : IsSample ids k sel) :
    (4 ≤ (Gpgsa.mk sel).sats_count ∧ (Gpgsa.mk sel).sats_count ≤ 12 ∧
      (Gpgsa.mk sel).sats_count ≤ N) ∧
    (gpgsvGroupInstances N ids).length = (N + 3) / 4 ∧
    ((gpgsvGroupInstances N ids).map Gpgsv.sats_in_sentence).sum = N := by
  obtain ⟨hselk, hnd, hsub⟩ := hs
  have hcount : (Gpgsa.mk sel).sats_count = k := hselk
  refine ⟨⟨?_, ?_, ?_⟩, ?_, ?_⟩
  · omega
  · omega
  · have := nodup_subset_length_le sel ids hnd hsub
    show sel.length ≤ N
    omega
  · simp [gpgsvGroupInstances]
  · simp only [gpgsvGroupInstances, List.map_map]
    have hnum1 : 1 ≤ (N + 3) / 4 := by omega
    obtain ⟨m, hm⟩ : ∃ m, (N + 3) / 4 = m + 1 := ⟨(N + 3) / 4 - 1, by omega⟩
    rw [hm, List.range_succ, List.map_append, List.sum_append]
    have hinit : (List.range m).map
          (Gpgsv.sats_in_sentence ∘ fun i =>
            { num_of_gsv_in_group := m + 1, sentence_num := i + 1,
              sats_total := N,
              sats_in_sentence :=
                if i + 1 = m + 1 ∧ N % 4 ≠ 0 then N % 4 else 4,
              sats_ids := (ids.drop (4 * i)).take
                (if i + 1 = m + 1 ∧ N % 4 ≠ 0 then N % 4 else 4) })
        = (List.range m).map (fun _ => 4) := by
      apply List.map_congr_left
      intro i hi
      rw [List.mem_range] at hi
      simp only [Function.comp_apply]
      show (if i + 1 = m + 1 ∧ N % 4 ≠ 0 then N % 4 else 4) = 4
      rw [if_neg (by omega)]
    rw [hinit, sum_map_const]
    simp only [List.map_cons, List.map_nil, List.sum_cons, List.sum_nil,
      Function.comp_apply, List.length_range]
    show m * 4 + ((if True ∧ N % 4 ≠ 0 then N % 4 else 4) + 0) = N
    by_cases h4 : N % 4 = 0
    · rw [if_neg (fun hc => hc.2 h4)]
      omega
    · rw [if_pos ⟨trivial, h4⟩]
      omega

/-- The satellite id set for the C4 witness: 15 distinct ids, as the default
`GpgsvGroup()` draws. -/
def idsC4 : List String :=
  ["01", "02", "03", "04", "05", "06", "07", "08", "09", "10", "11", "12", "13",
    "14", "15"]

/-- Witness for C4: the 15-satellite default set with a 12-id selection. -/
theorem C4_satellite_invariants_witness :
    (4 ≤ 15 ∧ idsC4.length = 15 ∧ idsC4.Nodup ∧ 4 ≤ 12 ∧ 12 ≤ 12 ∧
      IsSample idsC4 12 (idsC4.take 12)) ∧
    ((4 ≤ (Gpgsa.mk (idsC4.take 12)).sats_count ∧
        (Gpgsa.mk (idsC4.take 12)).sats_count ≤ 12 ∧
        (Gpgsa.mk (idsC4.take 12)).sats_count ≤ 15) ∧
      (gpgsvGroupInstances 15 idsC4).length = (15 + 3) / 4 ∧
      ((gpgsvGroupInstances 15 idsC4).map Gpgsv.sats_in_sentence).sum = 15) :=
  ⟨⟨by decide, by decide, by decide, by decide, by decide, by decide⟩,
    C4_satellite_invariants 15 (by decide) idsC4 (by decide) (by decide) 12 (by decide)
      (by decide) (idsC4.take 12) (by decide)⟩

/-! ## Round trip of the coordinate conversion (C5) -/

theorem digit_ne_dot {c : Char} (h : IsDigitCh c) : c ≠ '.' := by
  intro heq
  rw [heq] at h
  exact absurd h (by decide)

theorem no_dot_of_digits (l : List Char) (h : ∀ c ∈ l, IsDigitCh c) : '.' ∉ l :=
  fun hd => digit_ne_dot (h '.' hd) rfl

theorem replicate_zero_digits (k : ℕ) : ∀ c ∈ List.replicate k '0', IsDigitCh c := by
  intro c hc
  rw [List.eq_of_mem_replicate hc]
  decide

theorem zfill_all_digits (w : ℕ) (l : List Char) (h : ∀ c ∈ l, IsDigitCh c) :
    ∀ c ∈ zfill w l, IsDigitCh c := by
  intro c hc
  rcases List.mem_append.mp hc with hc | hc
  · exact replicate_zero_digits _ c hc
  · exact h c hc

theorem takeWhile_append_dot (ip fp : List Char) (h : '.' ∉ ip) :
    (ip ++ '.' :: fp).takeWhile (fun c => c ≠ '.') = ip := by
  induction ip with
  | nil =>
    simp [List.takeWhile_cons]
  | cons c l ih =>
    have hc : c ≠ '.' := fun hc => h (by simp [hc])
    simp only [List.cons_append, List.takeWhile_cons, decide_eq_true hc, if_true]
    rw [ih (fun hmem => h (by simp [hmem]))]

theorem dropWhile_append_dot (ip fp : List Char) (h : '.' ∉ ip) :
    (ip ++ '.' :: fp).dropWhile (fun c => c ≠ '.') = '.' :: fp := by
  induction ip with
  | nil =>
    simp [List.dropWhile_cons]
  | cons c l ih =>
    have hc : c ≠ '.' := fun hc => h (by simp [hc])
    simp only [List.cons_append, List.dropWhile_cons, decide_eq_true hc, if_true]
    exact ih (fun hmem => h (by simp [hmem]))

theorem takeWhile_no_dot (l : List Char) (h : '.' ∉ l) :
    l.takeWhile (fun c => c ≠ '.') = l := by
  induction l with
  | nil => rfl
  | cons c t ih =>
    have hc : c ≠ '.' := fun hc => h (by simp [hc])
    simp only [List.takeWhile_cons, decide_eq_true hc, if_true]
    rw [ih (fun hmem => h (by simp [hmem]))]

theorem dropWhile_no_dot (l : List Char) (h : '.' ∉ l) :
    l.dropWhile (fun c => c ≠ '.') = [] := by
  induction l with
  | nil => rfl
  | cons c t ih =>
    have hc : c ≠ '.' := fun hc => h (by simp [hc])
    simp only [List.dropWhile_cons, decide_eq_true hc, if_true]
    exact ih (fun hmem => h (by simp [hmem]))

theorem strFindDot_eval (ip fp : List Char) (h : '.' ∉ ip) :
    strFindDot (ip ++ '.' :: fp) = (ip.length : ℤ) := by
  unfold strFindDot
  rw [if_pos (by simp), takeWhile_append_dot ip fp h]

theorem pyFloat_digits (l : List Char) (h1 : l ≠ []) (h2 : ∀ c ∈ l, IsDigitCh c) :
    pyFloat l = some ((digitsVal l : ℚ)) := by
  have hd : '.' ∉ l := no_dot_of_digits l h2
  have ht := takeWhile_no_dot l hd
  have hdr := dropWhile_no_dot l hd
  unfold pyFloat
  rw [ht, hdr]
  show (if l ≠ [] ∧ ∀ c ∈ l, IsDigitCh c then some ((digitsVal l : ℚ)) else none)
    = some ((digitsVal l : ℚ))
  rw [if_pos ⟨h1, h2⟩]

theorem pyFloat_int_frac (ip fp : List Char) (hip : ∀ c ∈ ip, IsDigitCh c)
    (hfp : ∀ c ∈ fp, IsDigitCh c) (hne : ip ≠ [] ∨ fp ≠ []) :
    pyFloat (ip ++ '.' :: fp)
      = some ((digitsVal ip : ℚ) + (digitsVal fp : ℚ) / 10 ^ fp.length) := by
  have hdip : '.' ∉ ip := no_dot_of_digits ip hip
  have hdfp : '.' ∉ fp := no_dot_of_digits fp hfp
  have ht := takeWhile_append_dot ip fp hdip
  have hdr := dropWhile_append_dot ip fp hdip
  unfold pyFloat
  rw [ht, hdr]
  show (if (ip ≠ [] ∨ fp ≠ []) ∧ (∀ c ∈ ip, IsDigitCh c) ∧ (∀ c ∈ fp, IsDigitCh c)
        ∧ '.' ∉ fp
      then some ((digitsVal ip : ℚ) + (digitsVal fp : ℚ) / 10 ^ fp.length) else none)
    = some ((digitsVal ip : ℚ) + (digitsVal fp : ℚ) / 10 ^ fp.length)
  rw [if_pos ⟨hne, hip, hfp, hdfp⟩]

theorem digitsVal_take_drop (l : List Char) (k : ℕ) :
    digitsVal l = digitsVal (l.take k) * 10 ^ (l.drop k).length + digitsVal (l.drop k) := by
  conv_lhs => rw [← List.take_append_drop k l]
  rw [digitsVal_append]

/-- Parsing a rendered `(d)ddmm.mmmmm` string: `nmeall2ddd` recovers the whole
degrees (all integer digits but the last two) plus the minutes over 60,
rounded to 10 decimals. -/
theorem nmeall2ddd_rendered (n w : ℕ) (hw : 10 ≤ w) :
    nmeall2dddData
        (zfill w (natDigits (n / 10 ^ 5) ++ '.' :: zfill 5 (natDigits (n % 10 ^ 5))))
      = some (roundPy 10
          (((n / 10 ^ 7 : ℕ) : ℚ) + ((n % 10 ^ 7 : ℕ) : ℚ) / 10 ^ 5 / 60)) := by
  have hD1 : 1 ≤ (natDigits (n / 10 ^ 5)).length :=
    List.length_pos.mpr (natDigits_ne_nil _)
  have hFlen : (zfill 5 (natDigits (n % 10 ^ 5))).length = 5 := by
    have hle : (natDigits (n % 10 ^ 5)).length ≤ 5 :=
      natDigits_length_le (Nat.mod_lt _ (by norm_num)) (by norm_num)
    rw [zfill_length]
    omega
  have hFdig : ∀ c ∈ zfill 5 (natDigits (n % 10 ^ 5)), IsDigitCh c :=
    zfill_all_digits _ _ (natDigits_all_digits _)
  have hassoc : zfill w (natDigits (n / 10 ^ 5) ++ '.' :: zfill 5 (natDigits (n % 10 ^ 5)))
      = (List.replicate
            (w - (natDigits (n / 10 ^ 5) ++ '.' :: zfill 5 (natDigits (n % 10 ^ 5))).length)
            '0' ++ natDigits (n / 10 ^ 5))
        ++ '.' :: zfill 5 (natDigits (n % 10 ^ 5)) := by
    unfold zfill
    exact (List.append_assoc _ _ _).symm
  rw [hassoc]
  set D := natDigits (n / 10 ^ 5) with hD
  set F := zfill 5 (natDigits (n % 10 ^ 5)) with hF
  set Z := List.replicate (w - (D ++ '.' :: F).length) '0' with hZ
  set IP := Z ++ D with hIPdef
  have hIPdig : ∀ c ∈ IP, IsDigitCh c := by
    intro c hc
    rcases List.mem_append.mp hc with hc | hc
    · rw [hZ] at hc
      exact replicate_zero_digits _ c hc
    · rw [hD] at hc
      exact natDigits_all_digits _ c hc
  have hIPdot : '.' ∉ IP := no_dot_of_digits IP hIPdig
  have hlensum : (D ++ '.' :: F).length = D.length + 1 + F.length := by
    rw [List.length_append, List.length_cons]
    omega
  have hZlen : Z.length = w - (D.length + 1 + F.length) := by
    rw [hZ, List.length_replicate, hlensum]
  have hIPlen : 4 ≤ IP.length := by
    rw [hIPdef, List.length_append, hZlen, hFlen]
    have := hD1
    omega
  simp only [nmeall2dddData]
  rw [strFindDot_eval IP F hIPdot]
  rw [if_neg (by omega)]
  have hidx : (((IP.length : ℤ)) - 2).toNat = IP.length - 2 := by omega
  rw [hidx]
  have htake : (IP ++ '.' :: F).take (IP.length - 2) = IP.take (IP.length - 2) :=
    List.take_append_of_le_length (by omega)
  have hdrop : (IP ++ '.' :: F).drop (IP.length - 2) = IP.drop (IP.length - 2) ++ '.' :: F :=
    List.drop_append_of_le_length (by omega)
  rw [htake, hdrop]
  have hdroplen : (IP.drop (IP.length - 2)).length = 2 := by
    rw [List.length_drop]
    omega
  have htakelen : (IP.take (IP.length - 2)).length = IP.length - 2 := by
    rw [List.length_take]
    omega
  rw [pyFloat_digits (IP.take (IP.length - 2))
      (by
        intro hnil
        rw [hnil] at htakelen
        simp at htakelen
        omega)
      (fun c hc => hIPdig c (List.take_subset _ _ hc))]
  rw [pyFloat_int_frac (IP.drop (IP.length - 2)) F
      (fun c hc => hIPdig c (List.drop_subset _ _ hc)) hFdig
      (Or.inl (by
        intro hnil
        rw [hnil] at hdroplen
        simp at hdroplen))]
  have hIPval : digitsVal IP = n / 10 ^ 5 := by
    rw [hIPdef, digitsVal_append, hZ, digitsVal_replicate_zero, hD, digitsVal_natDigits]
    simp
  have hsplit := digitsVal_take_drop IP (IP.length - 2)
  rw [hdroplen, hIPval] at hsplit
  norm_num at hsplit
  have hdropval_lt : digitsVal (IP.drop (IP.length - 2)) < 100 := by
    have hlt := digitsVal_lt (IP.drop (IP.length - 2))
      (fun c hc => hIPdig c (List.drop_subset _ _ hc))
    rw [hdroplen] at hlt
    norm_num at hlt
    exact hlt
  have htakeval : digitsVal (IP.take (IP.length - 2)) = n / 10 ^ 5 / 100 := by
    omega
  have hdropval : digitsVal (IP.drop (IP.length - 2)) = n / 10 ^ 5 % 100 := by
    omega
  have hmod : n % 10 ^ 7 = (n / 10 ^ 5 % 100) * 10 ^ 5 + n % 10 ^ 5 := by
    have e5 : (10 : ℕ) ^ 5 = 100000 := by norm_num
    have e7 : (10 : ℕ) ^ 7 = 10000000 := by norm_num
    rw [e5, e7]
    omega
  have hFval : digitsVal F = n % 10 ^ 5 := by
    rw [hF, digitsVal_zfill, digitsVal_natDigits]
  have hE : ((10 : ℚ) ^ (5 : ℕ)) ≠ 0 := by norm_num
  have h1 : ((n / 10 ^ 5 / 100 : ℕ) : ℚ) = ((n / 10 ^ 7 : ℕ) : ℚ) := by
    rw [Nat.div_div_eq_div_mul]
    norm_num
  have h2 : ((n / 10 ^ 5 % 100 : ℕ) : ℚ) + ((n % 10 ^ 5 : ℕ) : ℚ) / 10 ^ (5 : ℕ)
      = ((n % 10 ^ 7 : ℕ) : ℚ) / 10 ^ (5 : ℕ) := by
    rw [hmod]
    push_cast
    rw [add_div, mul_div_assoc]
    norm_num
  rw [htakeval, hdropval, hFval, hFlen, h1, h2]

/-- Rounding to `k` decimal places moves a value by at most half an ulp. -/
theorem roundPy_err (k : ℕ) (x : ℚ) : |roundPy k x - x| ≤ 1 / 2 / 10 ^ k := by
  have hpow : (0 : ℚ) < 10 ^ k := by positivity
  have key : |((⌊x * 10 ^ k + 1 / 2⌋ : ℤ) : ℚ) - x * 10 ^ k| ≤ 1 / 2 := by
    rw [abs_le]
    constructor
    · have := Int.lt_floor_add_one (x * 10 ^ k + 1 / 2)
      linarith
    · have := Int.floor_le (x * 10 ^ k + 1 / 2)
      linarith
  have hdiff : roundPy k x - x
      = (((⌊x * 10 ^ k + 1 / 2⌋ : ℤ) : ℚ) - x * 10 ^ k) / 10 ^ k := by
    unfold roundPy
    field_simp
    ring
  rw [hdiff, abs_div, abs_of_pos hpow]
  exact (div_le_div_right hpow).mpr key

/-- C5 (amended): for every nonnegative decimal-degree input and either axis,
rendering at the default precision with `ddd2nmeall` and parsing back with
`nmeall2ddd` succeeds and reproduces the input to within `1e-5` degrees
(half an ulp of the 5-decimal minutes field is `1/12000000` degrees, and the
final `round(.., 10)` adds at most `1/(2*10^10)`). -/
theorem C5_round_trip (q : ℚ) (att : String) (hq : 0 ≤ q) :
    ∃ r, nmeall2ddd (ddd2nmeall q att false) = some r ∧ |r - q| ≤ 1 / 100000 := by
  have ha : qabs q = q := qabs_of_nonneg q hq
  set d : ℤ := ⌊q⌋ with hd
  have hd0 : 0 ≤ d := Int.floor_nonneg.mpr hq
  set m : ℚ := q * 60 - (d : ℚ) * 60 with hm
  have hm0 : 0 ≤ m := by
    have := Int.floor_le q
    rw [hm]
    linarith
  have hmlt : m < 60 := by
    have := Int.lt_floor_add_one q
    rw [hm]
    linarith
  set N : ℤ := ⌊(((d * 100 : ℤ) : ℚ) + m) * 10 ^ 5 + 1 / 2⌋ with hN
  set p : ℤ := ⌊m * 10 ^ 5 + 1 / 2⌋ with hp
  have hsplitN : N = d * 10 ^ 7 + p := by
    rw [hN, hp]
    have harg : (((d * 100 : ℤ) : ℚ) + m) * 10 ^ 5 + 1 / 2
        = ((d * 10 ^ 7 : ℤ) : ℚ) + (m * 10 ^ 5 + 1 / 2) := by
      push_cast
      ring
    rw [harg, Int.floor_int_add]
  have hp0 : 0 ≤ p := by
    rw [hp]
    apply Int.floor_nonneg.mpr
    have h5 : (0 : ℚ) ≤ m * 10 ^ 5 := mul_nonneg hm0 (by positivity)
    linarith
  have hp6 : p ≤ 6000000 := by
    have hy : m * 10 ^ 5 + 1 / 2 < ((6000001 : ℤ) : ℚ) := by
      push_cast
      nlinarith [hmlt]
    have h2 := Int.floor_lt.mpr hy
    rw [hp]
    omega
  have hsplitN2 : N = d * 10000000 + p := by
    rw [hsplitN]
    norm_num
  have hdiv7 : N.toNat / 10000000 = d.toNat := by omega
  have hmod7 : N.toNat % 10000000 = p.toNat := by omega
  have hdata : ddd2nmeallData q att false
      = zfill (if att = "lat" then 10 else 11)
          (natDigits (N.toNat / 10 ^ 5) ++ '.' :: zfill 5 (natDigits (N.toNat % 10 ^ 5))) := by
    simp only [ddd2nmeallData, fmtFixed, ha, Bool.false_eq_true, if_false]
    split_ifs with hatt
    · rfl
    · rfl
  have hw : 10 ≤ (if att = "lat" then 10 else 11) := by split_ifs <;> norm_num
  have hparse := nmeall2ddd_rendered N.toNat (if att = "lat" then 10 else 11) hw
  refine ⟨roundPy 10 (((N.toNat / 10 ^ 7 : ℕ) : ℚ)
      + ((N.toNat % 10 ^ 7 : ℕ) : ℚ) / 10 ^ 5 / 60), ?_, ?_⟩
  · show nmeall2dddData (ddd2nmeallData q att false) = _
    rw [hdata]
    exact hparse
  · have hdQ : ((d.toNat : ℕ) : ℚ) = (d : ℚ) := by
      exact_mod_cast Int.toNat_of_nonneg hd0
    have hpQ : ((p.toNat : ℕ) : ℚ) = (p : ℚ) := by
      exact_mod_cast Int.toNat_of_nonneg hp0
    have hval : ((N.toNat / 10 ^ 7 : ℕ) : ℚ) + ((N.toNat % 10 ^ 7 : ℕ) : ℚ) / 10 ^ 5 / 60
        = (d : ℚ) + (p : ℚ) / 6000000 := by
      rw [(by norm_num : (10 : ℕ) ^ 7 = 10000000), hdiv7, hmod7, hdQ, hpQ, div_div]
      norm_num
    rw [hval]
    have hpnear : |(p : ℚ) - m * 100000| ≤ 1 / 2 := by
      have h1 := Int.lt_floor_add_one (m * 10 ^ 5 + 1 / 2)
      have h2 := Int.floor_le (m * 10 ^ 5 + 1 / 2)
      have e5 : ((10 : ℚ) ^ 5) = 100000 := by norm_num
      rw [e5] at h1 h2
      rw [hp, e5, abs_le]
      constructor
      · linarith
      · linarith
    have hq_eq : q = (d : ℚ) + m / 60 := by
      rw [hm]
      ring
    have hvq : (d : ℚ) + (p : ℚ) / 6000000 - q = ((p : ℚ) - m * 100000) / 6000000 := by
      rw [hq_eq]
      ring
    have hverr : |(d : ℚ) + (p : ℚ) / 6000000 - q| ≤ 1 / 12000000 := by
      rw [hvq, abs_div, abs_of_pos (by norm_num : (0 : ℚ) < 6000000)]
      calc |(p : ℚ) - m * 100000| / 6000000
          ≤ (1 / 2) / 6000000 := by
            exact (div_le_div_right (by norm_num)).mpr hpnear
        _ = 1 / 12000000 := by norm_num
    have hrerr := roundPy_err 10 ((d : ℚ) + (p : ℚ) / 6000000)
    calc |roundPy 10 ((d : ℚ) + (p : ℚ) / 6000000) - q|
        ≤ |roundPy 10 ((d : ℚ) + (p : ℚ) / 6000000) - ((d : ℚ) + (p : ℚ) / 6000000)|
          + |((d : ℚ) + (p : ℚ) / 6000000) - q| := abs_sub_le _ _ _
      _ ≤ 1 / 2 / 10 ^ 10 + 1 / 12000000 := add_le_add hrerr hverr
      _ ≤ 1 / 100000 := by norm_num

/-- C5 counterexample to the claim as stated: (a) a latitude whose fractional
minutes round to exactly 60.000 at 5 decimals is rendered with the literal
minutes field `60.00000` (here `4960.00000` for a value just below 50°), not
rolled into the next whole degree; (b) the round trip does not reproduce a
negative input within `1e-5`: `-50°` renders via `abs` and parses back to
`+50`. -/
theorem C5_counterexample :
    ddd2nmeall (2999999996 / 60000000 : ℚ) "lat" false = "4960.00000"
    ∧ nmeall2ddd (ddd2nmeall (-50 : ℚ) "lat" false) = some 50 := by
  constructor
  · show (⟨ddd2nmeallData (2999999996 / 60000000 : ℚ) "lat" false⟩ : String) = _
    have h : ddd2nmeallData (2999999996 / 60000000 : ℚ) "lat" false
        = ['4', '9', '6', '0', '.', '0', '0', '0', '0', '0'] := by
      simp only [ddd2nmeallData, fmtFixed]
      rw [qabs_of_nonneg (2999999996 / 60000000) (by norm_num)]
      norm_num [Int.toNat_ofNat]
      decide
    rw [h]
  · have hneg : qabs (-50 : ℚ) = 50 := by
      unfold qabs
      norm_num
    have hrender : ddd2nmeallData (-50 : ℚ) "lat" false
        = ['5', '0', '0', '0', '.', '0', '0', '0', '0', '0'] := by
      simp only [ddd2nmeallData, fmtFixed]
      rw [hneg]
      norm_num [Int.toNat_ofNat]
      decide
    show nmeall2dddData (ddd2nmeallData (-50 : ℚ) "lat" false) = some 50
    rw [hrender]
    simp only [nmeall2dddData]
    rw [show strFindDot ['5', '0', '0', '0', '.', '0', '0', '0', '0', '0'] = 4 from by decide]
    rw [if_neg (by decide)]
    rw [show ((4 : ℤ) - 2).toNat = 2 from by decide]
    rw [show List.take 2 ['5', '0', '0', '0', '.', '0', '0', '0', '0', '0']
        = ['5', '0'] from rfl]
    rw [show List.drop 2 ['5', '0', '0', '0', '.', '0', '0', '0', '0', '0']
        = ['0', '0'] ++ '.' :: ['0', '0', '0', '0', '0'] from rfl]
    rw [pyFloat_digits ['5', '0'] (by decide) (by decide)]
    rw [pyFloat_int_frac ['0', '0'] ['0', '0', '0', '0', '0'] (by decide) (by decide)
        (Or.inl (by decide))]
    rw [show digitsVal ['5', '0'] = 50 from by decide]
    rw [show digitsVal ['0', '0'] = 0 from by decide]
    rw [show digitsVal ['0', '0', '0', '0', '0'] = 0 from by decide]
    show some (roundPy 10 (((50 : ℕ) : ℚ)
        + (((0 : ℕ) : ℚ) + ((0 : ℕ) : ℚ) / 10 ^ (['0', '0', '0', '0', '0'] : List Char).length) / 60))
      = some 50
    norm_num [roundPy]

/-- Witness: the round trip at `50.0386°` latitude. -/
theorem C5_round_trip_witness :
    (0 : ℚ) ≤ 500386 / 10000
    ∧ ∃ r, nmeall2ddd (ddd2nmeall (500386 / 10000) "lat" false) = some r
        ∧ |r - 500386 / 10000| ≤ 1 / 100000 :=
  ⟨by norm_num, C5_round_trip (500386 / 10000) "lat" (by norm_num)⟩

end NmeaGps

